import Mathlib

/-!
Verification of setup-network-environment.

A shallow embedding of `main.go`: the route resolver `getDefaultGatewayIfaceName`,
the formatter `writeEnvironment` and the file-writing `main`, together with the
fragment of the Go packages `net`, `strings` and `bytes` they call (address
parsing and printing follow the current Go releases: `ParseCIDR` returns the
16-byte form of an address, an IPv4 field has no leading zero).

Conventions.
* A Go byte slice (`net.IP`, `net.IPMask`) is a `List Nat` of values below 256.
* A Go `(value, error)` pair is an `Except`, an `Option`, or a pair with an
  `Option Error`, whichever keeps the shape of the source.
* The package-level variables bound to flags are passed in explicitly, and the
  one that `writeEnvironment` assigns (`defaultIfaceName`) is returned.
* The case tables of the Go `unicode` package, which `strings.ToUpper` reads for
  runes above ASCII, are a parameter `caseTable` of every function that formats
  an interface name; theorems hold for every table.
* Each `buffer.WriteString(fmt.Sprintf("KEY=%s\n", v))` call appends one `Line`
  with that key and value; `Line.format` gives back the formatted text.
-/

namespace SetupNetworkEnvironment

/-! ## Go standard library: `errors`, `strings` -/

/-- Go `error` value, identified by its message. -/
structure Error where
  msg : String
deriving DecidableEq, Repr

/-- Go `unicode.ToUpper`. Up to `unicode.MaxASCII` the letters `a` to `z` are
shifted to `A` to `Z` and every other rune is kept; above it the result is
`unicode.To(unicode.UpperCase, r)`, read from the tables of the Go `unicode`
package, which are no part of this program: `caseTable` stands for them. -/
def unicodeToUpper (caseTable : Char → Char) (r : Char) : Char :=
  if r.toNat ≤ 0x7F then
    if 'a'.toNat ≤ r.toNat ∧ r.toNat ≤ 'z'.toNat then
      Char.ofNat (r.toNat - ('a'.toNat - 'A'.toNat))
    else r
  else caseTable r

/-- Go `strings.ToUpper`: `unicode.ToUpper` mapped over the runes of the text
(a `String` is a sequence of runes, that is valid UTF-8). -/
def stringsToUpper (caseTable : Char → Char) (s : String) : String :=
  String.mk (s.data.map (unicodeToUpper caseTable))

/-- Go `strings.Replace(s, old, new, -1)` for one-character `old` and `new`:
every occurrence of `old` is replaced. -/
def stringsReplace (s : String) (old new : Char) : String :=
  String.mk (s.data.map (fun c => if c = old then new else c))

/-! ## Go standard library: `net` -/

/-- Go `net.IP`: a slice of bytes, 4 or 16 of them for a valid address. -/
abbrev IP := List Nat

/-- Go `net.IPMask`. -/
abbrev IPMask := List Nat

/-- Go `net.IPNet`. -/
structure IPNet where
  IP : IP
  Mask : IPMask
deriving DecidableEq, Repr

def IPv4len : Nat := 4

def IPv6len : Nat := 16

/-- The twelve bytes `00…00 ff ff` that prefix an IPv4-mapped IPv6 address. -/
def v4InV6Prefix : List Nat := [0, 0, 0, 0, 0, 0, 0, 0, 0, 0, 0xff, 0xff]

/-- Go `net.IPv4(a, b, c, d)`: the 16-byte form of an IPv4 address. -/
def IPv4 (a b c d : Nat) : IP := v4InV6Prefix ++ [a, b, c, d]

/-- Go `IP.To4`: the 4-byte form of an IPv4 address, `none` (Go `nil`) when the
address is not IPv4. -/
def IP.To4 (ip : IP) : Option IP :=
  if ip.length = IPv4len then some ip
  else if ip.length = IPv6len ∧ ip.take 12 = v4InV6Prefix then some (ip.drop 12)
  else none

/-- Go `IP.Equal`. -/
def IP.Equal (ip x : IP) : Bool :=
  if ip.length = x.length then decide (ip = x)
  else if ip.length = IPv4len ∧ x.length = IPv6len then
    decide (x.take 12 = v4InV6Prefix ∧ ip = x.drop 12)
  else if ip.length = IPv6len ∧ x.length = IPv4len then
    decide (ip.take 12 = v4InV6Prefix ∧ ip.drop 12 = x)
  else false

def IPv4bcast : IP := IPv4 255 255 255 255

def IPv4zero : IP := IPv4 0 0 0 0

def IPv6unspecified : IP := List.replicate 16 0

def IPv6loopback : IP := List.replicate 15 0 ++ [1]

/-- Go `IP.IsUnspecified`. -/
def IP.IsUnspecified (ip : IP) : Bool :=
  IP.Equal ip IPv4zero || IP.Equal ip IPv6unspecified

/-- Go `IP.IsLoopback`. -/
def IP.IsLoopback (ip : IP) : Bool :=
  match IP.To4 ip with
  | some ip4 => decide (ip4.getD 0 0 = 127)
  | none => IP.Equal ip IPv6loopback

/-- Go `IP.IsMulticast`. -/
def IP.IsMulticast (ip : IP) : Bool :=
  match IP.To4 ip with
  | some ip4 => decide (ip4.getD 0 0 &&& 0xf0 = 0xe0)
  | none => decide (ip.length = IPv6len ∧ ip.getD 0 0 = 0xff)

/-- Go `IP.IsLinkLocalUnicast`. -/
def IP.IsLinkLocalUnicast (ip : IP) : Bool :=
  match IP.To4 ip with
  | some ip4 => decide (ip4.getD 0 0 = 169 ∧ ip4.getD 1 0 = 254)
  | none => decide (ip.length = IPv6len ∧ ip.getD 0 0 = 0xfe ∧ ip.getD 1 0 &&& 0xc0 = 0x80)

/-- Go `IP.IsGlobalUnicast`. -/
def IP.IsGlobalUnicast (ip : IP) : Bool :=
  (decide (ip.length = IPv4len) || decide (ip.length = IPv6len)) &&
    !IP.Equal ip IPv4bcast &&
    !IP.IsUnspecified ip &&
    !IP.IsLoopback ip &&
    !IP.IsMulticast ip &&
    !IP.IsLinkLocalUnicast ip

/-- Go `net.CIDRMask(ones, bits)` for `bits` a multiple of 8 and `ones ≤ bits`:
`fuel` is the number of bytes still to produce. -/
def CIDRMaskBytes : Nat → Nat → List Nat
  | 0, _ => []
  | fuel + 1, n =>
    if n ≥ 8 then 0xff :: CIDRMaskBytes fuel (n - 8)
    else (0xff - (0xff >>> n)) :: CIDRMaskBytes fuel 0

/-- Go `net.CIDRMask`. -/
def CIDRMask (ones bits : Nat) : IPMask :=
  CIDRMaskBytes (bits / 8) ones

/-- Bytewise `ip[i] & mask[i]`. -/
def andBytes : List Nat → List Nat → List Nat
  | a :: as, b :: bs => (a &&& b) :: andBytes as bs
  | _, _ => []

/-- Go `IP.Mask`; the empty list is Go `nil`. -/
def IP.Mask (ip : IP) (mask : IPMask) : IP :=
  let mask := if mask.length = IPv6len ∧ ip.length = IPv4len ∧ mask.take 12 = List.replicate 12 0xff
    then mask.drop 12 else mask
  let ip := if mask.length = IPv4len ∧ ip.length = IPv6len ∧ ip.take 12 = v4InV6Prefix
    then ip.drop 12 else ip
  if ip.length ≠ mask.length then [] else andBytes ip mask

/-- Go `networkNumberAndMask`. -/
def networkNumberAndMask (n : IPNet) : Option (IP × IPMask) :=
  let go (ip : IP) : Option (IP × IPMask) :=
    if n.Mask.length = IPv4len then
      if ip.length ≠ IPv4len then none else some (ip, n.Mask)
    else if n.Mask.length = IPv6len then
      if ip.length = IPv4len then some (ip, n.Mask.drop 12) else some (ip, n.Mask)
    else none
  match IP.To4 n.IP with
  | some ip => go ip
  | none => if n.IP.length ≠ IPv6len then none else go n.IP

/-- Go `IPNet.Contains`. -/
def IPNet.Contains (n : IPNet) (ip : SetupNetworkEnvironment.IP) : Bool :=
  match networkNumberAndMask n with
  | none => false
  | some (nn, m) =>
    let ip := match IP.To4 ip with
      | some x => x
      | none => ip
    if ip.length ≠ nn.length then false
    else decide (andBytes nn m = andBytes ip m)

/-- Decimal digits of a number, as `strconv.Itoa` prints them. -/
def decimal (n : Nat) : List Char := Nat.toDigits 10 n

/-- Lower-case hexadecimal digits without leading zeros (`appendHex`). -/
def appendHex (n : Nat) : List Char := Nat.toDigits 16 n

/-- The 16-bit groups of a 16-byte address, most significant first. -/
def v6u16 : List Nat → List Nat
  | hi :: lo :: rest => (hi * 256 + lo) :: v6u16 rest
  | _ => []

/-- Number of zero groups at the head of the list. -/
def zeroRun : List Nat → Nat
  | 0 :: rest => zeroRun rest + 1
  | _ => 0

/-- The first longest run of at least two zero groups, as `(start, end)`:
the scan of `appendTo6`, `i` being the index of the head of the list. -/
def longestZeroRun : List Nat → Nat → Option (Nat × Nat) → Option (Nat × Nat)
  | [], _, best => best
  | g :: rest, i, best =>
    let l := zeroRun (g :: rest)
    let best := match best with
      | none => if l ≥ 2 then some (i, i + l) else none
      | some (zs, ze) => if l ≥ 2 ∧ l > ze - zs then some (i, i + l) else some (zs, ze)
    longestZeroRun rest (i + 1) best

/-- Groups printed in hexadecimal and separated by colons. -/
def joinHex (groups : List Nat) : List Char :=
  List.intercalate [':'] (groups.map appendHex)

/-- Textual form of a 16-byte address that is not IPv4 (`Addr.string6`): the
groups before the elided run of zeros, `::`, and the groups after it. -/
def string6 (ip : IP) : List Char :=
  let groups := v6u16 ip
  match longestZeroRun groups 0 none with
  | none => joinHex groups
  | some (zs, ze) => joinHex (groups.take zs) ++ [':', ':'] ++ joinHex (groups.drop ze)

/-- Go `IP.String`. -/
def IP.String (ip : IP) : String :=
  if ip.length = 0 then "<nil>"
  else if ip.length ≠ IPv4len ∧ ip.length ≠ IPv6len then
    String.mk ('?' :: (ip.map (fun b => Nat.toDigits 16 (b / 16) ++ Nat.toDigits 16 (b % 16))).flatten)
  else match IP.To4 ip with
    | some p4 => String.mk (List.intercalate ['.'] (p4.map decimal))
    | none => String.mk (string6 ip)

/-- Go `parseIPv4Fields`: dotted decimal, four fields of value at most 255, no
empty field and no leading zero. `val` and `digLen` describe the field being
read, `fields` the ones completed. -/
def parseIPv4Fields : List Char → Nat → Nat → List Nat → Option (List Nat)
  | [], val, _, fields => if fields.length < 3 then none else some (fields ++ [val])
  | c :: cs, val, digLen, fields =>
    if '0' ≤ c ∧ c ≤ '9' then
      if digLen = 1 ∧ val = 0 then none
      else
        let val := val * 10 + (c.toNat - '0'.toNat)
        if val > 255 then none else parseIPv4Fields cs val (digLen + 1) fields
    else if c = '.' then
      if digLen = 0 ∨ cs = [] then none
      else if fields.length = 3 then none
      else parseIPv4Fields cs 0 0 (fields ++ [val])
    else none

/-- Value of a hexadecimal digit. -/
def hexVal (c : Char) : Option Nat :=
  if '0' ≤ c ∧ c ≤ '9' then some (c.toNat - '0'.toNat)
  else if 'a' ≤ c ∧ c ≤ 'f' then some (c.toNat - 'a'.toNat + 10)
  else if 'A' ≤ c ∧ c ≤ 'F' then some (c.toNat - 'A'.toNat + 10)
  else none

/-- The hexadecimal number at the head of the text: `(acc, off, rest)`, or
`none` when it has more than four digits. -/
def readHex : List Char → Nat → Nat → Option (Nat × Nat × List Char)
  | [], acc, off => some (acc, off, [])
  | c :: cs, acc, off =>
    match hexVal c with
    | none => some (acc, off, c :: cs)
    | some d => if off > 3 then none else readHex cs (acc * 16 + d) (off + 1)

/-- The group loop of `parseIPv6`. `fuel` bounds the iterations (`for i < 16`,
two bytes a turn), `ip` holds the `i` bytes parsed so far and `ellipsis` the
position of `::`. The result is the bytes, the ellipsis and the text left. -/
def parseIPv6Loop : Nat → List Char → List Nat → Option Nat →
    Option (List Nat × Option Nat × List Char)
  | 0, s, ip, ellipsis => some (ip, ellipsis, s)
  | fuel + 1, s, ip, ellipsis =>
    match readHex s 0 0 with
    | none => none
    | some (acc, off, rest) =>
      if off = 0 then none
      else if rest.head? = some '.' then
        if ellipsis = none ∧ ip.length ≠ 12 then none
        else if ip.length + 4 > 16 then none
        else match parseIPv4Fields s 0 0 [] with
          | none => none
          | some fields => some (ip ++ fields, ellipsis, [])
      else
        let ip := ip ++ [acc / 256, acc % 256]
        match rest with
        | [] => some (ip, ellipsis, [])
        | c :: rest =>
          if c ≠ ':' then none
          else match rest with
            | [] => none
            | ':' :: rest =>
              if ellipsis ≠ none then none
              else if rest = [] then some (ip, some ip.length, [])
              else parseIPv6Loop fuel rest ip (some ip.length)
            | _ => parseIPv6Loop fuel rest ip ellipsis

/-- Go `parseIPv6` for text without a zone: the 16 bytes of the address. -/
def parseIPv6 (s : List Char) : Option (List Nat) :=
  let start : List Char × Option Nat :=
    match s with
    | ':' :: ':' :: rest => (rest, some 0)
    | _ => (s, none)
  if start.2 = some 0 ∧ start.1 = [] then some IPv6unspecified
  else match parseIPv6Loop 8 start.1 [] start.2 with
    | none => none
    | some (ip, ellipsis, rest) =>
      if rest ≠ [] then none
      else if ip.length < 16 then
        match ellipsis with
        | none => none
        | some e => some (ip.take e ++ List.replicate (16 - ip.length) 0 ++ ip.drop e)
      else if ellipsis ≠ none then none
      else some ip

/-- Go `dtoi` on the whole text: a non-empty run of decimal digits whose value
stays below `0xFFFFFF`. -/
def dtoi : List Char → Nat → Nat → Option Nat
  | [], n, i => if i = 0 then none else some n
  | c :: cs, n, i =>
    if '0' ≤ c ∧ c ≤ '9' then
      let n := n * 10 + (c.toNat - '0'.toNat)
      if n ≥ 0xFFFFFF then none else dtoi cs n (i + 1)
    else none

/-- Go `netip.ParseAddr` as `ParseCIDR` uses it: the 16-byte form of the address
and its bit length. A zone (`%`) is rejected. -/
def parseAddr (s : List Char) : Option (List Nat × Nat) :=
  if '%' ∈ s then none
  else match s.find? (fun c => c = '.' ∨ c = ':') with
    | some '.' => (parseIPv4Fields s 0 0 []).map (fun f => (v4InV6Prefix ++ f, 32))
    | some ':' => (parseIPv6 s).map (fun ip => (ip, 128))
    | _ => none

/-- Go `net.ParseCIDR`: the address and the network of `addr/len`; `none` stands
for the parse error. -/
def ParseCIDR (s : String) : Option (IP × IPNet) :=
  let addr := s.data.takeWhile (fun c => c ≠ '/')
  match s.data.dropWhile (fun c => c ≠ '/') with
  | [] => none
  | _ :: mask =>
    match parseAddr addr, dtoi mask 0 0 with
    | some (ip, bitLen), some n =>
      if n > bitLen then none
      else
        let m := CIDRMask n bitLen
        some (ip, { IP := IP.Mask ip m, Mask := m })
    | _, _ => none

/-! ## Go standard library: `bytes`, `io`, and the host -/

/-- One `KEY=VALUE` line, as one `fmt.Sprintf("KEY=%s\n", value)` produces it. -/
structure Line where
  key : String
  value : String
deriving DecidableEq, Repr

/-- Text of a line: `KEY=VALUE` and a newline. -/
def Line.format (l : Line) : String :=
  l.key ++ "=" ++ l.value ++ "\n"

/-- Go `bytes.Buffer`: the lines written so far, oldest first. -/
abbrev Buffer := List Line

/-- Go `Buffer.WriteString` of one formatted line. -/
def Buffer.WriteString (b : Buffer) (l : Line) : Buffer :=
  b ++ [l]

/-- Go `Buffer.String`: the bytes held by the buffer. -/
def Buffer.String (b : Buffer) : String :=
  String.join (b.map Line.format)

/-- Go `io.Writer`: the text it has accepted, and how its next `Write` fails, if
it does (the number of bytes accepted before the error, and the error). -/
structure Writer where
  written : String
  fault : Option (Nat × Error)

/-- Go `Buffer.WriteTo`: one `Write` of the whole buffer when it is not empty. -/
def Buffer.WriteTo (b : Buffer) (w : Writer) : Writer × Option Error :=
  let text := Buffer.String b
  if text = "" then (w, none)
  else match w.fault with
    | none => ({ w with written := w.written ++ text }, none)
    | some (n, e) => ({ w with written := w.written ++ String.mk (text.data.take n) }, some e)

/-- Go `net.Addr`, of which the program uses `String()` only. -/
structure Addr where
  String : String

/-- Go `net.Interface`: its name and what `Addrs()` returns. -/
structure Interface where
  Name : String
  Addrs : Except Error (List Addr)

/-- Go `netlink.Route`: the fields the resolver reads; `Iface` is a pointer and
may be `nil`. -/
structure Route where
  Default : Bool
  Iface : Option Interface

/-- What the operating system answers: `netlink.NetworkGetRoutes()` and
`net.Interfaces()`. -/
structure Host where
  NetworkGetRoutes : Except Error (List Route)
  Interfaces : Except Error (List Interface)

/-! ## `main.go` -/

/-- The package variables bound to the flags `-o`, `-i` and `-f`. -/
structure Flags where
  environmentFilePath : String
  defaultIfaceName : String
  filterCidrStr : String

def defaultEnvironmentFilePath : String := "/etc/network-environment"

def errNoInterface : Error := ⟨"found default route but could not determine interface"⟩

def errNoDefaultRoute : Error := ⟨"unable to find default route"⟩

/-- The `for _, route := range routes` loop of `getDefaultGatewayIfaceName`. -/
def routesLoop : List Route → String × Option Error
  | [] => ("", some errNoDefaultRoute)
  | route :: routes =>
    if route.Default then
      match route.Iface with
      | none => ("", some errNoInterface)
      | some iface => (iface.Name, none)
    else routesLoop routes

/-- Function `getDefaultGatewayIfaceName`, given the answer of `netlink.NetworkGetRoutes()`. -/
def getDefaultGatewayIfaceName (NetworkGetRoutes : Except Error (List Route)) :
    String × Option Error :=
  match NetworkGetRoutes with
  | .error err => ("", some err)
  | .ok routes => routesLoop routes

/-- The test `filterCidrNet != nil && filterCidrNet.Contains(ip)`. -/
def excluded (filterCidrNet : Option IPNet) (ip : IP) : Bool :=
  match filterCidrNet with
  | some n => n.Contains ip
  | none => false

/-- The first `for _, addr := range addrs` loop of `writeEnvironment`: the IPv4
pass over the addresses of `iface`. -/
def ipv4Loop (caseTable : Char → Char) (defaultIfaceName : String)
    (filterCidrNet : Option IPNet) (iface : Interface) : List Addr → Buffer → Buffer
  | [], buffer => buffer
  | addr :: addrs, buffer =>
    match ParseCIDR addr.String with
    | some (ip, _) =>
      if (IP.To4 ip).isSome then
        if excluded filterCidrNet ip then
          ipv4Loop caseTable defaultIfaceName filterCidrNet iface addrs buffer
        else
          let buffer := buffer.WriteString
            ⟨stringsReplace (stringsToUpper caseTable iface.Name) '.' '_' ++ "_IPV4",
              IP.String ip⟩
          if defaultIfaceName = iface.Name then
            buffer.WriteString ⟨"DEFAULT_IPV4", IP.String ip⟩
          else buffer
      else ipv4Loop caseTable defaultIfaceName filterCidrNet iface addrs buffer
    | none => ipv4Loop caseTable defaultIfaceName filterCidrNet iface addrs buffer

/-- The second `for _, addr := range addrs` loop of `writeEnvironment`: the
IPv6 pass over the addresses of `iface`. -/
def ipv6Loop (caseTable : Char → Char) (defaultIfaceName : String) (iface : Interface) :
    List Addr → Buffer → Buffer
  | [], buffer => buffer
  | addr :: addrs, buffer =>
    match ParseCIDR addr.String with
    | some (ip, _) =>
      if (IP.To4 ip).isNone ∧ IP.IsGlobalUnicast ip then
        let buffer := buffer.WriteString
          ⟨stringsReplace (stringsToUpper caseTable iface.Name) '.' '_' ++ "_IPV6",
            IP.String ip⟩
        if defaultIfaceName = iface.Name then
          buffer.WriteString ⟨"DEFAULT_IPV6", IP.String ip⟩
        else buffer
      else ipv6Loop caseTable defaultIfaceName iface addrs buffer
    | none => ipv6Loop caseTable defaultIfaceName iface addrs buffer

/-- The `for _, iface := range interfaces` loop of `writeEnvironment`; an error
of `iface.Addrs()` ends it. -/
def interfacesLoop (caseTable : Char → Char) (defaultIfaceName : String)
    (filterCidrNet : Option IPNet) : List Interface → Buffer → Except Error Buffer
  | [], buffer => .ok buffer
  | iface :: interfaces, buffer =>
    match iface.Addrs with
    | .error err => .error err
    | .ok addrs =>
      let buffer := ipv4Loop caseTable defaultIfaceName filterCidrNet iface addrs buffer
      let buffer := ipv6Loop caseTable defaultIfaceName iface addrs buffer
      interfacesLoop caseTable defaultIfaceName filterCidrNet interfaces buffer

/-- What a call of `writeEnvironment` leaves behind: the package variable
`defaultIfaceName`, the lines given to `log.Println`, the writer, and the
returned error. -/
structure Result where
  defaultIfaceName : String
  log : List String
  w : Writer
  err : Option Error

/-- Function `writeEnvironment(w, filterCidrNet)`, run on `host` with the package
variable `defaultIfaceName` as given. -/
def writeEnvironment (caseTable : Char → Char) (host : Host) (defaultIfaceName : String)
    (w : Writer) (filterCidrNet : Option IPNet) : Result :=
  let resolved : String × List String :=
    if defaultIfaceName = "" then
      match getDefaultGatewayIfaceName host.NetworkGetRoutes with
      | (name, some err) => (name, [err.msg])
      | (name, none) => (name, [])
    else (defaultIfaceName, [])
  let defaultIfaceName := resolved.1
  let buffer := Buffer.WriteString [] ⟨"DEFAULT_IFACE", defaultIfaceName⟩
  match host.Interfaces with
  | .error err => ⟨defaultIfaceName, resolved.2, w, some err⟩
  | .ok interfaces =>
    match interfacesLoop caseTable defaultIfaceName filterCidrNet interfaces buffer with
    | .error err => ⟨defaultIfaceName, resolved.2, w, some err⟩
    | .ok buffer =>
      let out := Buffer.WriteTo buffer w
      ⟨defaultIfaceName, resolved.2, out.1, out.2⟩

/-- The file system as `main` sees it: the content of each path, and whether
`os.Create`, the write to the created file and `os.Rename` fail. -/
structure OS where
  files : String → Option String
  createErr : Option Error
  writeFault : Option (Nat × Error)
  renameFails : Bool

/-- The files with the content of `path` replaced. -/
def setFile (files : String → Option String) (path : String) (content : Option String) :
    String → Option String :=
  fun p => if p = path then content else files p

/-- How a run of `main` ends: the files, the log, the exit status, and whether
`os.Rename` was reached. -/
structure Outcome where
  files : String → Option String
  log : List String
  exitCode : Nat
  renameCalled : Bool

/-- Function `main`, after `flag.Parse()` has filled `flags`. `log.Fatal` ends the run
with status 1. -/
def main (caseTable : Char → Char) (flags : Flags) (host : Host) (os : OS) : Outcome :=
  let parsed : Option (Option IPNet) :=
    if flags.filterCidrStr ≠ "" then
      match ParseCIDR flags.filterCidrStr with
      | none => none
      | some (_, n) => some (some n)
    else some none
  match parsed with
  | none => ⟨os.files, ["Cannot parse CIDR" ++ flags.filterCidrStr], 1, false⟩
  | some filterCidrNet =>
    let tempFilePath := flags.environmentFilePath ++ ".tmp"
    match os.createErr with
    | some err => ⟨os.files, [err.msg], 1, false⟩
    | none =>
      let r := writeEnvironment caseTable host flags.defaultIfaceName ⟨"", os.writeFault⟩
        filterCidrNet
      let files := setFile os.files tempFilePath (some r.w.written)
      match r.err with
      | some err => ⟨files, r.log ++ [err.msg], 1, false⟩
      | none =>
        let renamed :=
          if os.renameFails then files
          else setFile (setFile files flags.environmentFilePath (files tempFilePath))
            tempFilePath none
        ⟨renamed, r.log, 0, true⟩

/-! ## Vocabulary of the specification -/

/-- The key prefix of an interface: its name put in upper case, then with dots
replaced by underscores, the expression both passes format. -/
def keyPrefix (caseTable : Char → Char) (name : String) : String :=
  stringsReplace (stringsToUpper caseTable name) '.' '_'

/-- The text of the address parses, and `ip` is the address parsed. -/
def ParsesTo (addr : Addr) (ip : IP) : Prop :=
  (ParseCIDR addr.String).map Prod.fst = some ip

instance (addr : Addr) (ip : IP) : Decidable (ParsesTo addr ip) :=
  inferInstanceAs (Decidable ((ParseCIDR addr.String).map Prod.fst = some ip))

/-- The address "parses as an IPv4 address not excluded by the filter network". -/
def AcceptedIPv4 (filterCidrNet : Option IPNet) (addr : Addr) (ip : IP) : Prop :=
  ParsesTo addr ip ∧ IP.To4 ip ≠ none ∧ ∀ n, filterCidrNet = some n → n.Contains ip = false

/-- The address "parses as non-IPv4 and is a global-unicast IPv6 address". -/
def AcceptedIPv6 (addr : Addr) (ip : IP) : Prop :=
  ParsesTo addr ip ∧ IP.To4 ip = none ∧ IP.IsGlobalUnicast ip = true

/-- The address `ip` is that of the first element of the list, in enumeration
order, that `P` accepts. -/
def FirstAccepted (P : Addr → IP → Prop) (addrs : List Addr) (ip : IP) : Prop :=
  ∃ pre a post, addrs = pre ++ a :: post ∧ (∀ b ∈ pre, ∀ ip', ¬ P b ip') ∧ P a ip

/-- No element of the list is accepted by `P`. -/
def NoneAccepted (P : Addr → IP → Prop) (addrs : List Addr) : Prop :=
  ∀ a ∈ addrs, ∀ ip, ¬ P a ip

/-- The lines of an interface for its selected IPv4 address. -/
def ipv4Lines (caseTable : Char → Char) (defaultIfaceName : String) (iface : Interface)
    (ip : IP) : List Line :=
  ⟨keyPrefix caseTable iface.Name ++ "_IPV4", IP.String ip⟩ ::
    (if defaultIfaceName = iface.Name then [⟨"DEFAULT_IPV4", IP.String ip⟩] else [])

/-- The lines of an interface for its selected IPv6 address. -/
def ipv6Lines (caseTable : Char → Char) (defaultIfaceName : String) (iface : Interface)
    (ip : IP) : List Line :=
  ⟨keyPrefix caseTable iface.Name ++ "_IPV6", IP.String ip⟩ ::
    (if defaultIfaceName = iface.Name then [⟨"DEFAULT_IPV6", IP.String ip⟩] else [])

/-- The address list of an interface whose `Addrs()` succeeded. -/
def Interface.addrs (iface : Interface) : List Addr :=
  match iface.Addrs with
  | .ok addrs => addrs
  | .error _ => []

/-- The lines one interface adds to the buffer: the IPv4 pass, then the IPv6
pass, both on an empty buffer. -/
def ifaceBlock (caseTable : Char → Char) (defaultIfaceName : String)
    (filterCidrNet : Option IPNet) (iface : Interface) : List Line :=
  ipv4Loop caseTable defaultIfaceName filterCidrNet iface iface.addrs [] ++
    ipv6Loop caseTable defaultIfaceName iface iface.addrs []

/-- The default interface name `writeEnvironment` works with: the `-i` value
when it is not empty, else whatever name the route resolver returns. -/
def resolvedName (host : Host) (defaultIfaceName : String) : String :=
  if defaultIfaceName = "" then (getDefaultGatewayIfaceName host.NetworkGetRoutes).1
  else defaultIfaceName

/-- Every interface of the list answers `Addrs()` without error. -/
def AllAddrsOk (interfaces : List Interface) : Prop :=
  ∀ iface ∈ interfaces, ∃ addrs, iface.Addrs = .ok addrs

/-- The lines the interface loop adds for a list of interfaces. -/
def body (caseTable : Char → Char) (defaultIfaceName : String) (filterCidrNet : Option IPNet)
    (interfaces : List Interface) : List Line :=
  (interfaces.map (ifaceBlock caseTable defaultIfaceName filterCidrNet)).flatten

/-- Reading the interfaces fails with `e`: either `net.Interfaces()` returns
it, or `Addrs()` returns it for the first interface whose address list cannot
be read. -/
def EnumerationFails (host : Host) (e : Error) : Prop :=
  host.Interfaces = .error e ∨
    ∃ pre x post, host.Interfaces = .ok (pre ++ x :: post) ∧ AllAddrsOk pre ∧
      x.Addrs = .error e

/-- Number of lines with the given key. -/
def countKey (key : String) (lines : List Line) : Nat :=
  (lines.filter (fun l => decide (l.key = key))).length

/-- A case table that changes no rune. The examples use names made of ASCII
runes, which `unicodeToUpper` handles without the table. -/
def plainTable : Char → Char :=
  fun r => r

/-- The pieces of a text between its line breaks; the last piece is what
follows the last line break. -/
def splitLines : List Char → List (List Char)
  | [] => [[]]
  | c :: cs =>
    if c = '\n' then [] :: splitLines cs
    else match splitLines cs with
      | [] => [[c]]
      | l :: ls => (c :: l) :: ls

/-- The newline-terminated lines of a text, without their line breaks. -/
def textLines (text : String) : List (List Char) :=
  (splitLines text.data).dropLast

/-- The key of a `KEY=VALUE` line of text: what stands before the first `=`;
`none` for a line without `=`. -/
def lineKey (line : List Char) : Option (List Char) :=
  if '=' ∈ line then some (line.takeWhile (fun c => decide (c ≠ '='))) else none

/-- Number of lines of the text whose key is `key`. -/
def countTextKey (key : String) (text : String) : Nat :=
  ((textLines text).filter (fun line => decide (lineKey line = some key.data))).length

/-- The text appended to `before` to give `after`. -/
def textAdded (before after : String) : String :=
  String.mk (after.data.drop before.data.length)

/-- The characters of a formatted line before its line break. -/
def lineText (l : Line) : List Char :=
  l.key.data ++ '=' :: l.value.data

/-- The key has no line break and no `=`, and the value has no line break: the
line is then one line of text and its key is read back from the text. -/
def WellFormed (l : Line) : Prop :=
  '\n' ∉ l.key.data ∧ '=' ∉ l.key.data ∧ '\n' ∉ l.value.data

/-- The text has no line break and no `=`. -/
def PlainKey (s : String) : Prop :=
  '\n' ∉ s.data ∧ '=' ∉ s.data

instance (s : String) : Decidable (PlainKey s) :=
  inferInstanceAs (Decidable ('\n' ∉ s.data ∧ '=' ∉ s.data))

/-! ## The two address passes -/

variable {up : Char → Char}

theorem excluded_eq_false (f : Option IPNet) (ip : IP) :
    excluded f ip = false ↔ ∀ n, f = some n → n.Contains ip = false := by
  cases f with
  | none => simp [excluded]
  | some net => simp [excluded]

theorem ipv4Loop_skip (d : String) (f : Option IPNet) (iface : Interface) (a : Addr)
    (addrs : List Addr) (buffer : Buffer) (h : ∀ ip, ¬ AcceptedIPv4 f a ip) :
    ipv4Loop up d f iface (a :: addrs) buffer = ipv4Loop up d f iface addrs buffer := by
  rw [ipv4Loop]
  cases hp : ParseCIDR a.String with
  | none => simp
  | some p =>
    obtain ⟨ip, n⟩ := p
    have hip := h ip
    simp only [AcceptedIPv4, ParsesTo, hp, Option.map_some', true_and, not_and,
      ← excluded_eq_false] at hip
    cases h4 : IP.To4 ip with
    | none => simp [h4]
    | some p4 =>
      have hf : excluded f ip = true := by
        have := hip (by simp [h4])
        simpa using this
      simp [h4, hf]

theorem ipv4Loop_take (d : String) (f : Option IPNet) (iface : Interface) (a : Addr)
    (addrs : List Addr) (buffer : Buffer) (ip : IP) (h : AcceptedIPv4 f a ip) :
    ipv4Loop up d f iface (a :: addrs) buffer = buffer ++ ipv4Lines up d iface ip := by
  obtain ⟨hp, h4, hf⟩ := h
  rw [ipv4Loop]
  simp only [ParsesTo] at hp
  cases hq : ParseCIDR a.String with
  | none => simp [hq] at hp
  | some p =>
    obtain ⟨ip', n⟩ := p
    simp only [hq, Option.map_some', Option.some.injEq] at hp
    subst hp
    have h4' : (IP.To4 ip').isSome = true := Option.isSome_iff_ne_none.mpr h4
    have hc : excluded f ip' = false := (excluded_eq_false f ip').mpr hf
    simp only [h4', hc, if_true, Bool.false_eq_true, if_false, Buffer.WriteString, ipv4Lines,
      keyPrefix]
    split <;> simp

theorem ipv6Loop_skip (d : String) (iface : Interface) (a : Addr)
    (addrs : List Addr) (buffer : Buffer) (h : ∀ ip, ¬ AcceptedIPv6 a ip) :
    ipv6Loop up d iface (a :: addrs) buffer = ipv6Loop up d iface addrs buffer := by
  rw [ipv6Loop]
  cases hp : ParseCIDR a.String with
  | none => simp
  | some p =>
    obtain ⟨ip, n⟩ := p
    have hip := h ip
    simp only [AcceptedIPv6, ParsesTo, hp, Option.map_some', true_and, not_and] at hip
    have : ¬ ((IP.To4 ip).isNone = true ∧ IP.IsGlobalUnicast ip = true) := by
      rintro ⟨h1, h2⟩
      exact hip (Option.isNone_iff_eq_none.mp h1) h2
    simp only [this, if_false]

theorem ipv6Loop_take (d : String) (iface : Interface) (a : Addr)
    (addrs : List Addr) (buffer : Buffer) (ip : IP) (h : AcceptedIPv6 a ip) :
    ipv6Loop up d iface (a :: addrs) buffer = buffer ++ ipv6Lines up d iface ip := by
  obtain ⟨hp, h4, hg⟩ := h
  rw [ipv6Loop]
  simp only [ParsesTo] at hp
  cases hq : ParseCIDR a.String with
  | none => simp [hq] at hp
  | some p =>
    obtain ⟨ip', n⟩ := p
    simp only [hq, Option.map_some', Option.some.injEq] at hp
    subst hp
    have h4' : (IP.To4 ip').isNone = true := Option.isNone_iff_eq_none.mpr h4
    simp only [h4', hg, and_self, if_true, Buffer.WriteString, ipv6Lines, keyPrefix]
    split <;> simp

theorem none_or_first (P : Addr → IP → Prop) (addrs : List Addr) :
    NoneAccepted P addrs ∨ ∃ ip, FirstAccepted P addrs ip := by
  induction addrs with
  | nil => exact Or.inl (fun a ha => by cases ha)
  | cons a addrs ih =>
    by_cases h : ∃ ip, P a ip
    · obtain ⟨ip, hip⟩ := h
      exact Or.inr ⟨ip, [], a, addrs, rfl, (fun b hb => by cases hb), hip⟩
    · have hna : ∀ ip, ¬ P a ip := fun ip hip => h ⟨ip, hip⟩
      rcases ih with hnone | ⟨ip, pre, b, post, hsplit, hpre, hb⟩
      · left
        intro x hx
        rcases List.mem_cons.mp hx with rfl | hx
        · exact hna
        · exact hnone x hx
      · right
        refine ⟨ip, a :: pre, b, post, by rw [hsplit]; rfl, ?_, hb⟩
        intro x hx
        rcases List.mem_cons.mp hx with rfl | hx
        · exact hna
        · exact hpre x hx

theorem ipv4Loop_none (d : String) (f : Option IPNet) (iface : Interface)
    (addrs : List Addr) (buffer : Buffer) (h : NoneAccepted (AcceptedIPv4 f) addrs) :
    ipv4Loop up d f iface addrs buffer = buffer := by
  induction addrs with
  | nil => rw [ipv4Loop]
  | cons a addrs ih =>
    rw [ipv4Loop_skip d f iface a addrs buffer (h a (List.mem_cons_self a addrs))]
    exact ih (fun x hx => h x (List.mem_cons_of_mem a hx))

theorem ipv4Loop_first (d : String) (f : Option IPNet) (iface : Interface)
    (addrs : List Addr) (buffer : Buffer) (ip : IP)
    (h : FirstAccepted (AcceptedIPv4 f) addrs ip) :
    ipv4Loop up d f iface addrs buffer = buffer ++ ipv4Lines up d iface ip := by
  obtain ⟨pre, a, post, hsplit, hpre, ha⟩ := h
  subst hsplit
  induction pre with
  | nil => exact ipv4Loop_take d f iface a post buffer ip ha
  | cons b pre ih =>
    rw [List.cons_append, ipv4Loop_skip d f iface b _ buffer (hpre b (List.mem_cons_self b pre))]
    exact ih (fun x hx => hpre x (List.mem_cons_of_mem b hx))

theorem ipv6Loop_none (d : String) (iface : Interface)
    (addrs : List Addr) (buffer : Buffer) (h : NoneAccepted AcceptedIPv6 addrs) :
    ipv6Loop up d iface addrs buffer = buffer := by
  induction addrs with
  | nil => rw [ipv6Loop]
  | cons a addrs ih =>
    rw [ipv6Loop_skip d iface a addrs buffer (h a (List.mem_cons_self a addrs))]
    exact ih (fun x hx => h x (List.mem_cons_of_mem a hx))

theorem ipv6Loop_first (d : String) (iface : Interface)
    (addrs : List Addr) (buffer : Buffer) (ip : IP)
    (h : FirstAccepted AcceptedIPv6 addrs ip) :
    ipv6Loop up d iface addrs buffer = buffer ++ ipv6Lines up d iface ip := by
  obtain ⟨pre, a, post, hsplit, hpre, ha⟩ := h
  subst hsplit
  induction pre with
  | nil => exact ipv6Loop_take d iface a post buffer ip ha
  | cons b pre ih =>
    rw [List.cons_append, ipv6Loop_skip d iface b _ buffer (hpre b (List.mem_cons_self b pre))]
    exact ih (fun x hx => hpre x (List.mem_cons_of_mem b hx))

/-- The IPv4 pass only appends to the buffer. -/
theorem ipv4Loop_append (d : String) (f : Option IPNet) (iface : Interface)
    (addrs : List Addr) (buffer : Buffer) :
    ipv4Loop up d f iface addrs buffer = buffer ++ ipv4Loop up d f iface addrs [] := by
  rcases none_or_first (AcceptedIPv4 f) addrs with h | ⟨ip, h⟩
  · rw [ipv4Loop_none d f iface addrs buffer h, ipv4Loop_none d f iface addrs [] h]
    simp
  · rw [ipv4Loop_first d f iface addrs buffer ip h, ipv4Loop_first d f iface addrs [] ip h]
    simp

/-- The IPv6 pass only appends to the buffer. -/
theorem ipv6Loop_append (d : String) (iface : Interface)
    (addrs : List Addr) (buffer : Buffer) :
    ipv6Loop up d iface addrs buffer = buffer ++ ipv6Loop up d iface addrs [] := by
  rcases none_or_first AcceptedIPv6 addrs with h | ⟨ip, h⟩
  · rw [ipv6Loop_none d iface addrs buffer h, ipv6Loop_none d iface addrs [] h]
    simp
  · rw [ipv6Loop_first d iface addrs buffer ip h, ipv6Loop_first d iface addrs [] ip h]
    simp

/-! ## The interface loop and the whole of `writeEnvironment` -/

theorem interfacesLoop_ok (d : String) (f : Option IPNet) (interfaces : List Interface)
    (buffer : Buffer) (h : AllAddrsOk interfaces) :
    interfacesLoop up d f interfaces buffer = .ok (buffer ++ body up d f interfaces) := by
  induction interfaces generalizing buffer with
  | nil => simp [interfacesLoop, body]
  | cons iface rest ih =>
    obtain ⟨addrs, ha⟩ := h iface (List.mem_cons_self iface rest)
    rw [interfacesLoop]
    simp only [ha]
    rw [ih _ (fun x hx => h x (List.mem_cons_of_mem iface hx))]
    rw [ipv6Loop_append, ipv4Loop_append]
    simp [body, ifaceBlock, Interface.addrs, ha, List.append_assoc]

theorem interfacesLoop_error (d : String) (f : Option IPNet) (pre : List Interface)
    (x : Interface) (post : List Interface) (buffer : Buffer) (e : Error)
    (hpre : AllAddrsOk pre) (hx : x.Addrs = .error e) :
    interfacesLoop up d f (pre ++ x :: post) buffer = .error e := by
  induction pre generalizing buffer with
  | nil => simp [interfacesLoop, hx]
  | cons iface rest ih =>
    obtain ⟨addrs, ha⟩ := hpre iface (List.mem_cons_self iface rest)
    rw [List.cons_append, interfacesLoop]
    simp only [ha]
    exact ih _ (fun y hy => hpre y (List.mem_cons_of_mem iface hy))

theorem join_append (l₁ l₂ : List String) :
    String.join (l₁ ++ l₂) = String.join l₁ ++ String.join l₂ := by
  apply String.ext
  simp

theorem Buffer.String_append (a b : Buffer) :
    Buffer.String (a ++ b) = Buffer.String a ++ Buffer.String b := by
  simp [Buffer.String, join_append]

theorem Buffer.String_cons (l : Line) (b : Buffer) :
    Buffer.String (l :: b) = Line.format l ++ Buffer.String b := by
  apply String.ext
  simp [Buffer.String]

theorem Buffer.String_cons_ne_empty (l : Line) (b : Buffer) : Buffer.String (l :: b) ≠ "" := by
  intro h
  have h1 := congrArg String.data h
  simp only [Buffer.String_cons, Line.format, String.data_append] at h1
  have h2 : "\n".data = [] := (List.append_eq_nil.mp (List.append_eq_nil.mp h1).1).2
  exact absurd h2 (by decide)

/-- The result of `writeEnvironment` when the interfaces and their addresses
can be read and the writer accepts the text. -/
theorem writeEnvironment_ok (host : Host) (d : String) (w : Writer) (f : Option IPNet)
    (interfaces : List Interface) (hi : host.Interfaces = .ok interfaces)
    (ha : AllAddrsOk interfaces) (hw : w.fault = none) :
    (writeEnvironment up host d w f).err = none ∧
    (writeEnvironment up host d w f).defaultIfaceName = resolvedName host d ∧
    (writeEnvironment up host d w f).w.written = w.written ++ Buffer.String
      (⟨"DEFAULT_IFACE", resolvedName host d⟩ :: body up (resolvedName host d) f interfaces) := by
  have hname : (if d = "" then
      match getDefaultGatewayIfaceName host.NetworkGetRoutes with
      | (name, some err) => (name, [err.msg])
      | (name, none) => (name, [])
    else (d, [])).1 = resolvedName host d := by
    unfold resolvedName
    split
    · split <;> simp_all
    · rfl
  unfold writeEnvironment
  simp only [hi, hname, Buffer.WriteString, List.nil_append]
  rw [interfacesLoop_ok _ _ _ _ ha]
  simp only [Buffer.WriteTo, List.singleton_append, hw]
  rw [if_neg (Buffer.String_cons_ne_empty _ _)]
  exact ⟨rfl, trivial, rfl⟩

/-! ## Where a line comes from -/

theorem mem_ipv4Loop (d : String) (f : Option IPNet) (iface : Interface) (addrs : List Addr)
    (l : Line) (h : l ∈ ipv4Loop up d f iface addrs []) :
    ∃ a ∈ addrs, ∃ ip, AcceptedIPv4 f a ip ∧ l ∈ ipv4Lines up d iface ip := by
  rcases none_or_first (AcceptedIPv4 f) addrs with hn | ⟨ip, hf⟩
  · rw [ipv4Loop_none d f iface addrs [] hn] at h
    cases h
  · rw [ipv4Loop_first d f iface addrs [] ip hf] at h
    obtain ⟨pre, a, post, hsplit, _, ha⟩ := hf
    exact ⟨a, by rw [hsplit]; simp, ip, ha, by simpa using h⟩

theorem mem_ipv6Loop (d : String) (iface : Interface) (addrs : List Addr)
    (l : Line) (h : l ∈ ipv6Loop up d iface addrs []) :
    ∃ a ∈ addrs, ∃ ip, AcceptedIPv6 a ip ∧ l ∈ ipv6Lines up d iface ip := by
  rcases none_or_first AcceptedIPv6 addrs with hn | ⟨ip, hf⟩
  · rw [ipv6Loop_none d iface addrs [] hn] at h
    cases h
  · rw [ipv6Loop_first d iface addrs [] ip hf] at h
    obtain ⟨pre, a, post, hsplit, _, ha⟩ := hf
    exact ⟨a, by rw [hsplit]; simp, ip, ha, by simpa using h⟩

theorem mem_ipv4Lines (d : String) (iface : Interface) (ip : IP) (l : Line)
    (h : l ∈ ipv4Lines up d iface ip) :
    l = ⟨keyPrefix up iface.Name ++ "_IPV4", IP.String ip⟩ ∨
      (d = iface.Name ∧ l = ⟨"DEFAULT_IPV4", IP.String ip⟩) := by
  unfold ipv4Lines at h
  split at h <;> simp_all

theorem mem_ipv6Lines (d : String) (iface : Interface) (ip : IP) (l : Line)
    (h : l ∈ ipv6Lines up d iface ip) :
    l = ⟨keyPrefix up iface.Name ++ "_IPV6", IP.String ip⟩ ∨
      (d = iface.Name ∧ l = ⟨"DEFAULT_IPV6", IP.String ip⟩) := by
  unfold ipv6Lines at h
  split at h <;> simp_all

theorem mem_body (d : String) (f : Option IPNet) (interfaces : List Interface) (l : Line)
    (h : l ∈ body up d f interfaces) :
    ∃ iface ∈ interfaces, l ∈ ifaceBlock up d f iface := by
  simpa [body] using h

theorem mem_ifaceBlock (d : String) (f : Option IPNet) (iface : Interface) (l : Line)
    (h : l ∈ ifaceBlock up d f iface) :
    ∃ a ∈ iface.addrs, ∃ ip,
      (AcceptedIPv4 f a ip ∧ l ∈ ipv4Lines up d iface ip) ∨
      (AcceptedIPv6 a ip ∧ l ∈ ipv6Lines up d iface ip) := by
  rcases List.mem_append.mp h with h4 | h6
  · obtain ⟨a, ha, ip, hacc, hl⟩ := mem_ipv4Loop d f iface _ l h4
    exact ⟨a, ha, ip, Or.inl ⟨hacc, hl⟩⟩
  · obtain ⟨a, ha, ip, hacc, hl⟩ := mem_ipv6Loop d iface _ l h6
    exact ⟨a, ha, ip, Or.inr ⟨hacc, hl⟩⟩

/-! ## Keys -/

theorem append_ne_of_suffix_ne (p q s t : String) (hlen : s.length = t.length) (hne : s ≠ t) :
    p ++ s ≠ q ++ t := by
  intro h
  have h1 := congrArg String.data h
  simp only [String.data_append] at h1
  exact hne (String.ext (List.append_inj' h1 hlen).2)

theorem append_ne_of_prefix_ne (p q s : String) (hne : p ≠ q) : p ++ s ≠ q ++ s := by
  intro h
  have h1 := congrArg String.data h
  simp only [String.data_append] at h1
  exact hne (String.ext (List.append_inj' h1 rfl).1)

theorem key4_ne_default4 (p : String) (h : p ≠ "DEFAULT") : p ++ "_IPV4" ≠ "DEFAULT_IPV4" :=
  append_ne_of_prefix_ne p "DEFAULT" "_IPV4" h

theorem key6_ne_default6 (p : String) (h : p ≠ "DEFAULT") : p ++ "_IPV6" ≠ "DEFAULT_IPV6" :=
  append_ne_of_prefix_ne p "DEFAULT" "_IPV6" h

theorem key4_ne_default6 (p : String) : p ++ "_IPV4" ≠ "DEFAULT_IPV6" :=
  append_ne_of_suffix_ne p "DEFAULT" "_IPV4" "_IPV6" (by decide) (by decide)

theorem key6_ne_default4 (p : String) : p ++ "_IPV6" ≠ "DEFAULT_IPV4" :=
  append_ne_of_suffix_ne p "DEFAULT" "_IPV6" "_IPV4" (by decide) (by decide)

theorem key4_ne_key6 (p q : String) : p ++ "_IPV4" ≠ q ++ "_IPV6" :=
  append_ne_of_suffix_ne p q "_IPV4" "_IPV6" (by decide) (by decide)

/-! ## The text of the output, line by line -/

theorem splitLines_ne_nil (l : List Char) : splitLines l ≠ [] := by
  cases l with
  | nil => simp [splitLines]
  | cons c cs =>
    rw [splitLines]
    split
    · simp
    · split <;> simp

theorem splitLines_append_newline (a rest : List Char) (h : '\n' ∉ a) :
    splitLines (a ++ '\n' :: rest) = a :: splitLines rest := by
  induction a with
  | nil => simp [splitLines]
  | cons c a ih =>
    have hc : c ≠ '\n' := fun e => h (by simp [e])
    have ha : '\n' ∉ a := fun e => h (List.mem_cons_of_mem c e)
    rw [List.cons_append, splitLines, if_neg hc, ih ha]

theorem format_data (l : Line) : (Line.format l).data = lineText l ++ ['\n'] := by
  simp only [Line.format, String.data_append, lineText]
  simp

theorem textLines_cons (l : Line) (b : Buffer) (h : '\n' ∉ lineText l) :
    textLines (Buffer.String (l :: b)) = lineText l :: textLines (Buffer.String b) := by
  unfold textLines
  rw [Buffer.String_cons, String.data_append, format_data, List.append_assoc,
    List.singleton_append, splitLines_append_newline _ _ h,
    List.dropLast_cons_of_ne_nil (splitLines_ne_nil _)]

theorem textLines_buffer (b : Buffer) (h : ∀ l ∈ b, '\n' ∉ lineText l) :
    textLines (Buffer.String b) = b.map lineText := by
  induction b with
  | nil => rfl
  | cons l rest ih =>
    rw [textLines_cons l rest (h l (List.mem_cons_self l rest)),
      ih (fun x hx => h x (List.mem_cons_of_mem l hx)), List.map_cons]

theorem WellFormed.lineText {l : Line} (h : WellFormed l) : '\n' ∉ lineText l := by
  obtain ⟨h1, _, h3⟩ := h
  intro hm
  rcases List.mem_append.mp hm with hm | hm
  · exact h1 hm
  · rcases List.mem_cons.mp hm with hm | hm
    · exact absurd hm (by decide)
    · exact h3 hm

theorem lineKey_lineText (l : Line) (h : '=' ∉ l.key.data) :
    lineKey (lineText l) = some l.key.data := by
  have hmem : '=' ∈ lineText l := by simp [lineText]
  have hp : ∀ a ∈ l.key.data, (fun c => decide (c ≠ '=')) a = true := by
    intro a ha
    have : a ≠ '=' := fun e => h (e ▸ ha)
    simpa using this
  unfold lineKey
  rw [if_pos hmem]
  unfold lineText
  rw [List.takeWhile_append_of_pos hp]
  simp [List.takeWhile]

theorem countTextKey_buffer (key : String) (b : Buffer) (h : ∀ l ∈ b, WellFormed l) :
    countTextKey key (Buffer.String b) = countKey key b := by
  unfold countTextKey countKey
  rw [textLines_buffer b (fun l hl => (h l hl).lineText)]
  induction b with
  | nil => rfl
  | cons l rest ih =>
    have hl := h l (List.mem_cons_self l rest)
    have hk : decide (lineKey (lineText l) = some key.data) = decide (l.key = key) := by
      rw [lineKey_lineText l hl.2.1]
      by_cases e : l.key = key
      · simp [e]
      · have : l.key.data ≠ key.data := fun c => e (String.ext c)
        simp [e, this]
    have ih' := ih (fun x hx => h x (List.mem_cons_of_mem l hx))
    rw [List.map_cons, List.filter_cons, List.filter_cons, hk]
    split <;> simp [ih']

theorem mem_textLines_buffer (b : Buffer) (h : ∀ l ∈ b, WellFormed l) (line : List Char)
    (hl : line ∈ textLines (Buffer.String b)) :
    ∃ l ∈ b, line = lineText l ∧ lineKey line = some l.key.data := by
  rw [textLines_buffer b (fun l hl => (h l hl).lineText)] at hl
  obtain ⟨l, hlb, rfl⟩ := List.mem_map.mp hl
  exact ⟨l, hlb, rfl, lineKey_lineText l (h l hlb).2.1⟩

theorem textAdded_append (a t : String) : textAdded a (a ++ t) = t := by
  apply String.ext
  simp [textAdded]

/-! ## Printed addresses have no line break -/

theorem digitChar_ne_newline (n : Nat) : Nat.digitChar n ≠ '\n' := by
  by_cases h : n < 16
  · interval_cases n <;> decide
  · have e : Nat.digitChar n = '*' := by
      unfold Nat.digitChar
      repeat rw [if_neg (by omega)]
    rw [e]
    decide

theorem toDigitsCore_no_newline (base fuel n : Nat) (ds : List Char) (h : '\n' ∉ ds) :
    '\n' ∉ Nat.toDigitsCore base fuel n ds := by
  induction fuel generalizing n ds with
  | zero => simpa [Nat.toDigitsCore] using h
  | succ fuel ih =>
    have hd : '\n' ∉ Nat.digitChar (n % base) :: ds := by
      intro hm
      rcases List.mem_cons.mp hm with hm | hm
      · exact digitChar_ne_newline _ hm.symm
      · exact h hm
    rw [Nat.toDigitsCore]
    split
    · exact hd
    · exact ih _ _ hd

theorem toDigits_no_newline (base n : Nat) : '\n' ∉ Nat.toDigits base n :=
  toDigitsCore_no_newline base (n + 1) n [] (by simp)

theorem intercalate_no_newline (sep : List Char) (ls : List (List Char))
    (hs : '\n' ∉ sep) (hl : ∀ l ∈ ls, '\n' ∉ l) : '\n' ∉ List.intercalate sep ls := by
  induction ls with
  | nil => simp [List.intercalate]
  | cons a rest ih =>
    cases rest with
    | nil =>
      simpa [List.intercalate, List.intersperse] using hl a (List.mem_cons_self a [])
    | cons b rest =>
      have ha := hl a (List.mem_cons_self a _)
      have ih' := ih (fun x hx => hl x (List.mem_cons_of_mem a hx))
      have e : List.intercalate sep (a :: b :: rest) =
          a ++ sep ++ List.intercalate sep (b :: rest) := by
        simp [List.intercalate, List.intersperse]
      rw [e]
      simp only [List.mem_append, not_or]
      exact ⟨⟨ha, hs⟩, ih'⟩

theorem joinHex_no_newline (groups : List Nat) : '\n' ∉ joinHex groups := by
  apply intercalate_no_newline
  · decide
  · intro l hl
    obtain ⟨g, _, rfl⟩ := List.mem_map.mp hl
    exact toDigits_no_newline 16 g

theorem ipString_no_newline (ip : IP) : '\n' ∉ (IP.String ip).data := by
  unfold IP.String
  split
  · decide
  · split
    · intro hm
      rcases List.mem_cons.mp hm with hm | hm
      · exact absurd hm (by decide)
      · obtain ⟨l, hl, hc⟩ := List.mem_flatten.mp hm
        obtain ⟨b, _, rfl⟩ := List.mem_map.mp hl
        rcases List.mem_append.mp hc with hc | hc
        · exact toDigits_no_newline 16 _ hc
        · exact toDigits_no_newline 16 _ hc
    · split
      · apply intercalate_no_newline
        · decide
        · intro l hl
          obtain ⟨b, _, rfl⟩ := List.mem_map.mp hl
          exact toDigits_no_newline 10 b
      · show '\n' ∉ string6 ip
        unfold string6
        dsimp only
        split
        · exact joinHex_no_newline _
        · simp only [List.mem_append, not_or]
          exact ⟨⟨joinHex_no_newline _, by decide⟩, joinHex_no_newline _⟩

/-! ## Lines that are read back from the text -/

theorem wellFormed_header (name : String) (h : '\n' ∉ name.data) :
    WellFormed ⟨"DEFAULT_IFACE", name⟩ :=
  ⟨(by decide : '\n' ∉ "DEFAULT_IFACE".data), (by decide : '=' ∉ "DEFAULT_IFACE".data), h⟩

theorem wellFormed_of_key (p suffix : String) (ip : IP) (hp : PlainKey p)
    (hs : PlainKey suffix) : WellFormed ⟨p ++ suffix, IP.String ip⟩ := by
  refine ⟨?_, ?_, ipString_no_newline ip⟩
  · intro hm
    rw [String.data_append] at hm
    rcases List.mem_append.mp hm with hm | hm
    · exact hp.1 hm
    · exact hs.1 hm
  · intro hm
    rw [String.data_append] at hm
    rcases List.mem_append.mp hm with hm | hm
    · exact hp.2 hm
    · exact hs.2 hm

theorem wellFormed_ifaceBlock (d : String) (f : Option IPNet) (iface : Interface)
    (hn : PlainKey (keyPrefix up iface.Name)) :
    ∀ l ∈ ifaceBlock up d f iface, WellFormed l := by
  intro l hl
  obtain ⟨a, _, ip, hcase⟩ := mem_ifaceBlock d f iface l hl
  rcases hcase with ⟨_, hl4⟩ | ⟨_, hl6⟩
  · rcases mem_ipv4Lines _ _ _ _ hl4 with h | ⟨_, h⟩
    · rw [h]
      exact wellFormed_of_key _ "_IPV4" ip hn (by decide)
    · rw [h]
      exact ⟨(by decide : '\n' ∉ "DEFAULT_IPV4".data), (by decide : '=' ∉ "DEFAULT_IPV4".data),
        ipString_no_newline ip⟩
  · rcases mem_ipv6Lines _ _ _ _ hl6 with h | ⟨_, h⟩
    · rw [h]
      exact wellFormed_of_key _ "_IPV6" ip hn (by decide)
    · rw [h]
      exact ⟨(by decide : '\n' ∉ "DEFAULT_IPV6".data), (by decide : '=' ∉ "DEFAULT_IPV6".data),
        ipString_no_newline ip⟩

theorem wellFormed_output (d name : String) (f : Option IPNet) (interfaces : List Interface)
    (hd : '\n' ∉ name.data)
    (hn : ∀ iface ∈ interfaces, PlainKey (keyPrefix up iface.Name)) :
    ∀ l ∈ (⟨"DEFAULT_IFACE", name⟩ : Line) :: body up d f interfaces, WellFormed l := by
  intro l hl
  rcases List.mem_cons.mp hl with rfl | hl
  · exact wellFormed_header name hd
  · obtain ⟨iface, hif, hb⟩ := mem_body d f interfaces l hl
    exact wellFormed_ifaceBlock d f iface (hn iface hif) l hb

/-- The text a successful call adds to its writer. -/
theorem textAdded_writeEnvironment (host : Host) (d : String) (w : Writer) (f : Option IPNet)
    (interfaces : List Interface) (hi : host.Interfaces = .ok interfaces)
    (ha : AllAddrsOk interfaces) (hw : w.fault = none) :
    textAdded w.written (writeEnvironment up host d w f).w.written =
      Buffer.String (⟨"DEFAULT_IFACE", resolvedName host d⟩ ::
        body up (resolvedName host d) f interfaces) := by
  rw [(writeEnvironment_ok host d w f interfaces hi ha hw).2.2, textAdded_append]

/-! ## Address selection -/

theorem parsesTo_of_eq (a : Addr) (ip ip' : IP) (n : IPNet)
    (h : ParseCIDR a.String = some (ip', n)) (hp : ParsesTo a ip) : ip = ip' := by
  unfold ParsesTo at hp
  rw [h] at hp
  simpa using hp.symm

theorem mem_ipv4Loop_key (d : String) (f : Option IPNet) (iface : Interface)
    (addrs : List Addr) :
    (∃ l ∈ ipv4Loop up d f iface addrs [], l.key = keyPrefix up iface.Name ++ "_IPV4") ↔
      ∃ a ∈ addrs, ∃ ip, AcceptedIPv4 f a ip := by
  rcases none_or_first (AcceptedIPv4 f) addrs with h | ⟨ip, h⟩
  · rw [ipv4Loop_none d f iface addrs [] h]
    constructor
    · rintro ⟨l, hl, _⟩
      cases hl
    · rintro ⟨a, ha, ip, hip⟩
      exact absurd hip (h a ha ip)
  · rw [ipv4Loop_first d f iface addrs [] ip h]
    constructor
    · intro _
      obtain ⟨pre, a, post, hsplit, _, ha⟩ := h
      exact ⟨a, by rw [hsplit]; simp, ip, ha⟩
    · intro _
      exact ⟨⟨keyPrefix up iface.Name ++ "_IPV4", IP.String ip⟩, by simp [ipv4Lines], rfl⟩

theorem mem_ipv6Loop_key (d : String) (iface : Interface) (addrs : List Addr) :
    (∃ l ∈ ipv6Loop up d iface addrs [], l.key = keyPrefix up iface.Name ++ "_IPV6") ↔
      ∃ a ∈ addrs, ∃ ip, AcceptedIPv6 a ip := by
  rcases none_or_first AcceptedIPv6 addrs with h | ⟨ip, h⟩
  · rw [ipv6Loop_none d iface addrs [] h]
    constructor
    · rintro ⟨l, hl, _⟩
      cases hl
    · rintro ⟨a, ha, ip, hip⟩
      exact absurd hip (h a ha ip)
  · rw [ipv6Loop_first d iface addrs [] ip h]
    constructor
    · intro _
      obtain ⟨pre, a, post, hsplit, _, ha⟩ := h
      exact ⟨a, by rw [hsplit]; simp, ip, ha⟩
    · intro _
      exact ⟨⟨keyPrefix up iface.Name ++ "_IPV6", IP.String ip⟩, by simp [ipv6Lines], rfl⟩

/-- C1. IPv4 pass of `writeEnvironment`, for every default name, filter
network, interface, address list and buffer: either no address is accepted
(parses as IPv4 outside the filter network) and nothing is written, or the
pass writes `<IFACE>_IPV4=<addr>` for the first accepted address in enumeration
order (followed by `DEFAULT_IPV4=<addr>` on the default interface) and nothing
else; the `_IPV4` line is there exactly when some address is accepted. With
the filter `10.0.0.0/24` an interface whose only address is `10.0.0.5/24`
gets no line, and the whole output is then the header alone. -/
theorem ipv4_selection (up : Char → Char) (d : String) (f : Option IPNet) (iface : Interface)
    (addrs : List Addr) (buffer : Buffer) :
    ((NoneAccepted (AcceptedIPv4 f) addrs ∧ ipv4Loop up d f iface addrs buffer = buffer) ∨
      (∃ ip, FirstAccepted (AcceptedIPv4 f) addrs ip ∧
        ipv4Loop up d f iface addrs buffer =
          buffer ++ ⟨keyPrefix up iface.Name ++ "_IPV4", IP.String ip⟩ ::
            (if d = iface.Name then [⟨"DEFAULT_IPV4", IP.String ip⟩] else []))) ∧
    ((∃ l ∈ ipv4Loop up d f iface addrs [], l.key = keyPrefix up iface.Name ++ "_IPV4") ↔
      ∃ a ∈ addrs, ∃ ip, AcceptedIPv4 f a ip) ∧
    ipv4Loop up d ((ParseCIDR "10.0.0.0/24").map Prod.snd) iface [⟨"10.0.0.5/24"⟩] buffer
      = buffer ∧
    (writeEnvironment up ⟨.ok [], .ok [⟨"eth0", .ok [⟨"10.0.0.5/24"⟩]⟩]⟩ "" ⟨"", none⟩
      ((ParseCIDR "10.0.0.0/24").map Prod.snd)).w.written = "DEFAULT_IFACE=\n" := by
  refine ⟨?_, mem_ipv4Loop_key d f iface addrs, ?_, rfl⟩
  · rcases none_or_first (AcceptedIPv4 f) addrs with h | ⟨ip, h⟩
    · exact Or.inl ⟨h, ipv4Loop_none d f iface addrs buffer h⟩
    · exact Or.inr ⟨ip, h, ipv4Loop_first d f iface addrs buffer ip h⟩
  · apply ipv4Loop_none
    intro a ha ip hacc
    obtain ⟨hp, _, hf⟩ := hacc
    rw [List.mem_singleton] at ha
    subst ha
    have hparse : ParseCIDR (Addr.mk "10.0.0.5/24").String =
        some (IPv4 10 0 0 5, ⟨[10, 0, 0, 0], [255, 255, 255, 0]⟩) := by decide
    have hip := parsesTo_of_eq _ ip _ _ hparse hp
    subst hip
    have hnet : (ParseCIDR "10.0.0.0/24").map Prod.snd =
        some ⟨[10, 0, 0, 0], [255, 255, 255, 0]⟩ := by decide
    have hc := hf _ hnet
    revert hc
    decide

/-- C2. IPv6 pass of `writeEnvironment`, for every default name, interface,
address list and buffer: either no address is accepted (parses, is not IPv4
and is global unicast) and nothing is written, or the pass writes
`<IFACE>_IPV6=<addr>` for the first accepted address in enumeration order
(followed by `DEFAULT_IPV6=<addr>` on the default interface) and nothing else;
the `_IPV6` line is there exactly when some address is accepted. The lines
written after the IPv4 pass are the same for every filter network. For the
addresses `10.0.0.5/24, fe80::1/64, 2001:db8::1/64` the output has
`IFACE_IPV4=10.0.0.5` and `IFACE_IPV6=2001:db8::1`. -/
theorem ipv6_selection (up : Char → Char) (d : String) (iface : Interface) (addrs : List Addr) (buffer : Buffer) :
    ((NoneAccepted AcceptedIPv6 addrs ∧ ipv6Loop up d iface addrs buffer = buffer) ∨
      (∃ ip, FirstAccepted AcceptedIPv6 addrs ip ∧
        ipv6Loop up d iface addrs buffer =
          buffer ++ ⟨keyPrefix up iface.Name ++ "_IPV6", IP.String ip⟩ ::
            (if d = iface.Name then [⟨"DEFAULT_IPV6", IP.String ip⟩] else []))) ∧
    ((∃ l ∈ ipv6Loop up d iface addrs [], l.key = keyPrefix up iface.Name ++ "_IPV6") ↔
      ∃ a ∈ addrs, ∃ ip, AcceptedIPv6 a ip) ∧
    (∀ f : Option IPNet, ipv6Loop up d iface addrs (ipv4Loop up d f iface addrs buffer) =
      ipv4Loop up d f iface addrs buffer ++ ipv6Loop up d iface addrs []) ∧
    (writeEnvironment up
      ⟨.ok [], .ok [⟨"iface", .ok [⟨"10.0.0.5/24"⟩, ⟨"fe80::1/64"⟩, ⟨"2001:db8::1/64"⟩]⟩]⟩
      "" ⟨"", none⟩ none).w.written
      = "DEFAULT_IFACE=\nIFACE_IPV4=10.0.0.5\nIFACE_IPV6=2001:db8::1\n" := by
  refine ⟨?_, mem_ipv6Loop_key d iface addrs, fun f => ipv6Loop_append d iface addrs _,
    rfl⟩
  rcases none_or_first AcceptedIPv6 addrs with h | ⟨ip, h⟩
  · exact Or.inl ⟨h, ipv6Loop_none d iface addrs buffer h⟩
  · exact Or.inr ⟨ip, h, ipv6Loop_first d iface addrs buffer ip h⟩

/-! ## The filter network -/

/-- C3, counterexample. With the filter `2001:db8::/32` and an interface `eth0`
bound to `2001:db8::1/64`, an address the filter network contains, the output
still has the line `ETH0_IPV6=2001:db8::1`; a run of `main` with
`-f 2001:db8::/32` leaves it in the target file. -/
theorem filter_exclusion_counterexample :
    ∃ net ip, (ParseCIDR "2001:db8::/32").map Prod.snd = some net ∧
      ParsesTo ⟨"2001:db8::1/64"⟩ ip ∧ net.Contains ip = true ∧
      IP.String ip = "2001:db8::1" ∧
      (∀ caseTable, (writeEnvironment caseTable
        ⟨.ok [], .ok [⟨"eth0", .ok [⟨"2001:db8::1/64"⟩]⟩]⟩ "" ⟨"", none⟩
        (some net)).w.written = "DEFAULT_IFACE=\nETH0_IPV6=2001:db8::1\n") ∧
      (∀ caseTable, (main caseTable ⟨"/etc/network-environment", "", "2001:db8::/32"⟩
        ⟨.ok [], .ok [⟨"eth0", .ok [⟨"2001:db8::1/64"⟩]⟩]⟩
        ⟨fun _ => none, none, none, false⟩).files "/etc/network-environment"
        = some "DEFAULT_IFACE=\nETH0_IPV6=2001:db8::1\n") :=
  ⟨⟨[0x20, 0x01, 0x0d, 0xb8, 0, 0, 0, 0, 0, 0, 0, 0, 0, 0, 0, 0],
      [255, 255, 255, 255, 0, 0, 0, 0, 0, 0, 0, 0, 0, 0, 0, 0]⟩,
    [0x20, 0x01, 0x0d, 0xb8, 0, 0, 0, 0, 0, 0, 0, 0, 0, 0, 0, 1],
    by decide, by decide, by decide, by decide, fun _ => rfl, fun _ => rfl⟩

/-- C3, amended. When the interfaces and their addresses can be read and the
writer accepts the text, every line after the header carries the text of an
address bound to one of the interfaces, and it is either an IPv4 address that
the filter network does not contain, on that interface's `_IPV4` line or on
`DEFAULT_IPV4`, or an address that is not IPv4, on the `_IPV6` line or on
`DEFAULT_IPV6`: the filter keeps contained addresses off the IPv4 lines only. -/
theorem filter_excludes_ipv4 (up : Char → Char) (host : Host) (d : String) (w : Writer) (net : IPNet)
    (interfaces : List Interface) (hi : host.Interfaces = .ok interfaces)
    (ha : AllAddrsOk interfaces) (hw : w.fault = none) :
    ∃ lines, (writeEnvironment up host d w (some net)).w.written =
        w.written ++ Buffer.String (⟨"DEFAULT_IFACE", resolvedName host d⟩ :: lines) ∧
      ∀ l ∈ lines, ∃ iface ∈ interfaces, ∃ a ∈ iface.addrs, ∃ ip,
        ParsesTo a ip ∧ l.value = IP.String ip ∧
        ((IP.To4 ip ≠ none ∧ net.Contains ip = false ∧
            (l.key = keyPrefix up iface.Name ++ "_IPV4" ∨ l.key = "DEFAULT_IPV4")) ∨
          (IP.To4 ip = none ∧
            (l.key = keyPrefix up iface.Name ++ "_IPV6" ∨ l.key = "DEFAULT_IPV6"))) := by
  refine ⟨body up (resolvedName host d) (some net) interfaces,
    (writeEnvironment_ok host d w (some net) interfaces hi ha hw).2.2, ?_⟩
  intro l hl
  obtain ⟨iface, hif, hb⟩ := mem_body _ _ _ l hl
  obtain ⟨a, ha', ip, hcase⟩ := mem_ifaceBlock _ _ iface l hb
  refine ⟨iface, hif, a, ha', ip, ?_⟩
  rcases hcase with ⟨⟨hp, h4, hf⟩, hl4⟩ | ⟨⟨hp, h4, _⟩, hl6⟩
  · refine ⟨hp, ?_, Or.inl ⟨h4, hf net rfl, ?_⟩⟩
    · rcases mem_ipv4Lines _ _ _ _ hl4 with h | ⟨_, h⟩ <;> rw [h]
    · rcases mem_ipv4Lines _ _ _ _ hl4 with h | ⟨_, h⟩ <;> rw [h]
      · exact Or.inl rfl
      · exact Or.inr rfl
  · refine ⟨hp, ?_, Or.inr ⟨h4, ?_⟩⟩
    · rcases mem_ipv6Lines _ _ _ _ hl6 with h | ⟨_, h⟩ <;> rw [h]
    · rcases mem_ipv6Lines _ _ _ _ hl6 with h | ⟨_, h⟩ <;> rw [h]
      · exact Or.inl rfl
      · exact Or.inr rfl

/-- C3, amended, at a concrete input: the filter `10.0.0.0/24` on a host whose
interface `eth0` is bound to `10.0.0.5/24` and `192.168.1.10/24`. -/
theorem filter_excludes_ipv4_witness :
    ∃ lines, (writeEnvironment plainTable ⟨.ok [], .ok [⟨"eth0", .ok [⟨"10.0.0.5/24"⟩, ⟨"192.168.1.10/24"⟩]⟩]⟩
          "eth0" ⟨"", none⟩ (some ⟨[10, 0, 0, 0], [255, 255, 255, 0]⟩)).w.written =
        "" ++ Buffer.String (⟨"DEFAULT_IFACE", resolvedName
          ⟨.ok [], .ok [⟨"eth0", .ok [⟨"10.0.0.5/24"⟩, ⟨"192.168.1.10/24"⟩]⟩]⟩ "eth0"⟩ :: lines) ∧
      ∀ l ∈ lines, ∃ iface ∈ [(⟨"eth0", .ok [⟨"10.0.0.5/24"⟩, ⟨"192.168.1.10/24"⟩]⟩ : Interface)],
        ∃ a ∈ iface.addrs, ∃ ip,
        ParsesTo a ip ∧ l.value = IP.String ip ∧
        ((IP.To4 ip ≠ none ∧ IPNet.Contains ⟨[10, 0, 0, 0], [255, 255, 255, 0]⟩ ip = false ∧
            (l.key = keyPrefix plainTable iface.Name ++ "_IPV4" ∨ l.key = "DEFAULT_IPV4")) ∨
          (IP.To4 ip = none ∧
            (l.key = keyPrefix plainTable iface.Name ++ "_IPV6" ∨ l.key = "DEFAULT_IPV6"))) :=
  filter_excludes_ipv4 plainTable ⟨.ok [], .ok [⟨"eth0", .ok [⟨"10.0.0.5/24"⟩, ⟨"192.168.1.10/24"⟩]⟩]⟩
    "eth0" ⟨"", none⟩ ⟨[10, 0, 0, 0], [255, 255, 255, 0]⟩ _ rfl
    (fun iface h => by
      rw [List.mem_singleton] at h
      subst h
      exact ⟨_, rfl⟩) rfl

/-! ## The default interface -/

/-- C4. For every default name, filter network, interface, address list and
buffer, the two passes append `v4` then `v6`. On the interface whose name is
the default name each of them is empty or is the `_IPV4` (`_IPV6`) line
directly followed by `DEFAULT_IPV4` (`DEFAULT_IPV6`) with the same address; on
any other interface each is empty or that one `_IPV4` (`_IPV6`) line, with no
`DEFAULT_` line after it. With `-i eth0`, a default route on another interface
and `eth0` bound to `192.168.1.10/24`, the file has `ETH0_IPV4=192.168.1.10`
and then `DEFAULT_IPV4=192.168.1.10`. -/
theorem default_lines (up : Char → Char) (d : String) (f : Option IPNet) (iface : Interface)
    (addrs : List Addr) (buffer : Buffer) :
    (∃ v4 v6, ipv4Loop up d f iface addrs buffer = buffer ++ v4 ∧
      ipv6Loop up d iface addrs (ipv4Loop up d f iface addrs buffer) = buffer ++ v4 ++ v6 ∧
      (d = iface.Name →
        (v4 = [] ∨ ∃ s, v4 = [⟨keyPrefix up iface.Name ++ "_IPV4", s⟩, ⟨"DEFAULT_IPV4", s⟩]) ∧
        (v6 = [] ∨ ∃ s, v6 = [⟨keyPrefix up iface.Name ++ "_IPV6", s⟩, ⟨"DEFAULT_IPV6", s⟩])) ∧
      (d ≠ iface.Name →
        (v4 = [] ∨ ∃ s, v4 = [⟨keyPrefix up iface.Name ++ "_IPV4", s⟩]) ∧
        (v6 = [] ∨ ∃ s, v6 = [⟨keyPrefix up iface.Name ++ "_IPV6", s⟩]))) ∧
    (main up ⟨"/etc/network-environment", "eth0", ""⟩
      ⟨.ok [⟨true, some ⟨"eth1", .ok []⟩⟩],
        .ok [⟨"eth0", .ok [⟨"192.168.1.10/24"⟩]⟩, ⟨"eth1", .ok [⟨"10.0.0.5/24"⟩]⟩]⟩
      ⟨fun _ => none, none, none, false⟩).files "/etc/network-environment"
      = some ("DEFAULT_IFACE=eth0\nETH0_IPV4=192.168.1.10\nDEFAULT_IPV4=192.168.1.10\n" ++
          "ETH1_IPV4=10.0.0.5\n") := by
  refine ⟨⟨ipv4Loop up d f iface addrs [], ipv6Loop up d iface addrs [],
    ipv4Loop_append d f iface addrs buffer, ?_, ?_, ?_⟩, rfl⟩
  · rw [ipv6Loop_append, ipv4Loop_append]
  · intro hd
    constructor
    · rcases none_or_first (AcceptedIPv4 f) addrs with h | ⟨ip, h⟩
      · exact Or.inl (ipv4Loop_none d f iface addrs [] h)
      · right
        refine ⟨IP.String ip, ?_⟩
        rw [ipv4Loop_first d f iface addrs [] ip h]
        simp [ipv4Lines, hd]
    · rcases none_or_first AcceptedIPv6 addrs with h | ⟨ip, h⟩
      · exact Or.inl (ipv6Loop_none d iface addrs [] h)
      · right
        refine ⟨IP.String ip, ?_⟩
        rw [ipv6Loop_first d iface addrs [] ip h]
        simp [ipv6Lines, hd]
  · intro hd
    constructor
    · rcases none_or_first (AcceptedIPv4 f) addrs with h | ⟨ip, h⟩
      · exact Or.inl (ipv4Loop_none d f iface addrs [] h)
      · right
        refine ⟨IP.String ip, ?_⟩
        rw [ipv4Loop_first d f iface addrs [] ip h]
        simp [ipv4Lines, hd]
    · rcases none_or_first AcceptedIPv6 addrs with h | ⟨ip, h⟩
      · exact Or.inl (ipv6Loop_none d iface addrs [] h)
      · right
        refine ⟨IP.String ip, ?_⟩
        rw [ipv6Loop_first d iface addrs [] ip h]
        simp [ipv6Lines, hd]

/-! ## The route resolver -/

theorem routesLoop_all_false (routes : List Route) (h : ∀ r ∈ routes, r.Default = false) :
    routesLoop routes = ("", some errNoDefaultRoute) := by
  induction routes with
  | nil => rfl
  | cons r rest ih =>
    rw [routesLoop]
    simp only [h r (List.mem_cons_self r rest), Bool.false_eq_true, if_false]
    exact ih (fun x hx => h x (List.mem_cons_of_mem r hx))

theorem routesLoop_first (pre : List Route) (r : Route) (post : List Route)
    (hpre : ∀ x ∈ pre, x.Default = false) (hr : r.Default = true) :
    routesLoop (pre ++ r :: post) =
      match r.Iface with
      | none => ("", some errNoInterface)
      | some iface => (iface.Name, none) := by
  induction pre with
  | nil =>
    rw [List.nil_append, routesLoop]
    simp only [hr, if_true]
  | cons x rest ih =>
    rw [List.cons_append, routesLoop]
    simp only [hpre x (List.mem_cons_self x rest), Bool.false_eq_true, if_false]
    exact ih (fun y hy => hpre y (List.mem_cons_of_mem x hy))

theorem routes_none_or_first (routes : List Route) :
    (∀ r ∈ routes, r.Default = false) ∨
      ∃ pre r post, routes = pre ++ r :: post ∧ (∀ x ∈ pre, x.Default = false) ∧
        r.Default = true := by
  induction routes with
  | nil => exact Or.inl (fun r hr => by cases hr)
  | cons x rest ih =>
    cases hx : x.Default with
    | true => exact Or.inr ⟨[], x, rest, rfl, (fun y hy => by cases hy), hx⟩
    | false =>
      rcases ih with h | ⟨pre, r, post, hsplit, hpre, hr⟩
      · left
        intro y hy
        rcases List.mem_cons.mp hy with rfl | hy
        · exact hx
        · exact h y hy
      · right
        refine ⟨x :: pre, r, post, by rw [hsplit]; rfl, ?_, hr⟩
        intro y hy
        rcases List.mem_cons.mp hy with rfl | hy
        · exact hx
        · exact hpre y hy

/-- A failing resolver returns the empty name. -/
theorem resolver_failure_name (r : Except Error (List Route))
    (h : (getDefaultGatewayIfaceName r).2 ≠ none) : (getDefaultGatewayIfaceName r).1 = "" := by
  cases r with
  | error e => rfl
  | ok routes =>
    simp only [getDefaultGatewayIfaceName] at h ⊢
    rcases routes_none_or_first routes with hn | ⟨pre, r, post, hsplit, hpre, hr⟩
    · rw [routesLoop_all_false routes hn]
    · rw [hsplit, routesLoop_first pre r post hpre hr] at h ⊢
      cases hi : r.Iface with
      | none => rfl
      | some iface => simp [hi] at h

/-- C7. `getDefaultGatewayIfaceName`, for every routing table: an error of the
routing-table read is returned as is with the empty name; when the first route
flagged default has an interface, its name is returned without error; when the
first route flagged default has no interface, the result is the empty name and
the error "found default route but could not determine interface"; and the
error "unable to find default route" is returned exactly when no route is
flagged default. -/
theorem route_resolver (routes : List Route) (e : Error) :
    getDefaultGatewayIfaceName (.error e) = ("", some e) ∧
    (∀ pre r post iface, routes = pre ++ r :: post → (∀ x ∈ pre, x.Default = false) →
      r.Default = true → r.Iface = some iface →
      getDefaultGatewayIfaceName (.ok routes) = (iface.Name, none)) ∧
    (∀ pre r post, routes = pre ++ r :: post → (∀ x ∈ pre, x.Default = false) →
      r.Default = true → r.Iface = none →
      getDefaultGatewayIfaceName (.ok routes) = ("", some errNoInterface)) ∧
    ((getDefaultGatewayIfaceName (.ok routes)).2 = some errNoDefaultRoute ↔
      ∀ r ∈ routes, r.Default = false) ∧
    ((∀ r ∈ routes, r.Default = false) →
      getDefaultGatewayIfaceName (.ok routes) = ("", some errNoDefaultRoute)) := by
  refine ⟨rfl, ?_, ?_, ?_, fun h => routesLoop_all_false routes h⟩
  · intro pre r post iface hsplit hpre hr hi
    simp only [getDefaultGatewayIfaceName]
    rw [hsplit, routesLoop_first pre r post hpre hr, hi]
  · intro pre r post hsplit hpre hr hi
    simp only [getDefaultGatewayIfaceName]
    rw [hsplit, routesLoop_first pre r post hpre hr, hi]
  · simp only [getDefaultGatewayIfaceName]
    constructor
    · intro h
      rcases routes_none_or_first routes with hn | ⟨pre, r, post, hsplit, hpre, hr⟩
      · exact hn
      · rw [hsplit, routesLoop_first pre r post hpre hr] at h
        cases hi : r.Iface with
        | none =>
          rw [hi] at h
          exact absurd h (by decide)
        | some iface =>
          rw [hi] at h
          exact absurd h (by simp)
    · intro h
      rw [routesLoop_all_false routes h]

/-! ## No default route -/

/-- C5, counterexample. No `-i`, an empty routing table (the resolver fails with
"unable to find default route"). An interface named `DEFAULT` bound to
`10.0.0.5/24` puts the line `DEFAULT_IPV4=10.0.0.5` in the output as its own
`_IPV4` line; so does, with the value `_IPV4=10.0.0.5`, an interface named
`default_ipv4=`, whose key prefix is not `DEFAULT`. -/
theorem no_default_route_counterexample :
    (getDefaultGatewayIfaceName (.ok [])).2 = some errNoDefaultRoute ∧
    (∀ caseTable, (writeEnvironment caseTable
        ⟨.ok [], .ok [⟨"DEFAULT", .ok [⟨"10.0.0.5/24"⟩]⟩]⟩ "" ⟨"", none⟩ none).err = none ∧
      (writeEnvironment caseTable
        ⟨.ok [], .ok [⟨"DEFAULT", .ok [⟨"10.0.0.5/24"⟩]⟩]⟩ "" ⟨"", none⟩ none).w.written
        = "DEFAULT_IFACE=\nDEFAULT_IPV4=10.0.0.5\n") ∧
    countTextKey "DEFAULT_IPV4" "DEFAULT_IFACE=\nDEFAULT_IPV4=10.0.0.5\n" = 1 ∧
    (∀ caseTable, keyPrefix caseTable "default_ipv4=" = "DEFAULT_IPV4=" ∧
      (writeEnvironment caseTable
        ⟨.ok [], .ok [⟨"default_ipv4=", .ok [⟨"10.0.0.5/24"⟩]⟩]⟩ "" ⟨"", none⟩ none).w.written
        = "DEFAULT_IFACE=\nDEFAULT_IPV4=_IPV4=10.0.0.5\n") ∧
    countTextKey "DEFAULT_IPV4" "DEFAULT_IFACE=\nDEFAULT_IPV4=_IPV4=10.0.0.5\n" = 1 :=
  ⟨by decide, fun _ => ⟨rfl, rfl⟩, by decide, fun _ => ⟨rfl, rfl⟩, by decide⟩

/-- C5, amended. With no `-i` value and a failing route resolver, when the
interfaces and their addresses can be read and the writer accepts the text,
`writeEnvironment` returns no error and leaves the default name empty; the text
it adds to the writer starts with the line `DEFAULT_IFACE=`, the value empty;
and if no interface has an empty name, the key prefix `DEFAULT`, or a key
prefix with `=` or a line break in it, no line of that text has the key
`DEFAULT_IPV4` or `DEFAULT_IPV6`. -/
theorem no_default_route (up : Char → Char) (host : Host) (w : Writer) (f : Option IPNet)
    (interfaces : List Interface)
    (hr : (getDefaultGatewayIfaceName host.NetworkGetRoutes).2 ≠ none)
    (hi : host.Interfaces = .ok interfaces) (ha : AllAddrsOk interfaces)
    (hw : w.fault = none) :
    (writeEnvironment up host "" w f).err = none ∧
    (writeEnvironment up host "" w f).defaultIfaceName = "" ∧
    (writeEnvironment up host "" w f).w.written =
      w.written ++ textAdded w.written (writeEnvironment up host "" w f).w.written ∧
    "DEFAULT_IFACE=\n".data <+:
      (textAdded w.written (writeEnvironment up host "" w f).w.written).data ∧
    (textLines (textAdded w.written (writeEnvironment up host "" w f).w.written)).head?
      = some "DEFAULT_IFACE=".data ∧
    ((∀ iface ∈ interfaces, iface.Name ≠ "" ∧ keyPrefix up iface.Name ≠ "DEFAULT" ∧
        PlainKey (keyPrefix up iface.Name)) →
      ∀ line ∈ textLines (textAdded w.written (writeEnvironment up host "" w f).w.written),
        lineKey line ≠ some "DEFAULT_IPV4".data ∧ lineKey line ≠ some "DEFAULT_IPV6".data) := by
  have hname : resolvedName host "" = "" := by
    simp only [resolvedName, if_true]
    exact resolver_failure_name _ hr
  obtain ⟨h1, h2, h3⟩ := @writeEnvironment_ok up host "" w f interfaces hi ha hw
  have hT := @textAdded_writeEnvironment up host "" w f interfaces hi ha hw
  rw [hname] at h2 h3 hT
  have hdata : (Buffer.String (⟨"DEFAULT_IFACE", ""⟩ :: body up "" f interfaces)).data =
      "DEFAULT_IFACE=".data ++ '\n' :: (Buffer.String (body up "" f interfaces)).data := by
    rw [Buffer.String_cons, String.data_append, format_data]
    rfl
  refine ⟨h1, h2, ?_, ?_, ?_, ?_⟩
  · rw [hT]
    exact h3
  · rw [hT, hdata]
    exact ⟨(Buffer.String (body up "" f interfaces)).data, rfl⟩
  · rw [hT]
    unfold textLines
    rw [hdata, splitLines_append_newline _ _ (by decide),
      List.dropLast_cons_of_ne_nil (splitLines_ne_nil _)]
    rfl
  · intro hn line hline
    rw [hT] at hline
    have hwf := @wellFormed_output up "" "" f interfaces (by decide)
      (fun iface hif => (hn iface hif).2.2)
    obtain ⟨l, hl, _, hkey⟩ := mem_textLines_buffer _ hwf line hline
    have hne : l.key ≠ "DEFAULT_IPV4" ∧ l.key ≠ "DEFAULT_IPV6" := by
      rcases List.mem_cons.mp hl with rfl | hl
      · exact ⟨by decide, by decide⟩
      · obtain ⟨iface, hif, hb⟩ := mem_body _ _ _ l hl
        obtain ⟨hne, hpre, _⟩ := hn iface hif
        obtain ⟨a, _, ip, hcase⟩ := mem_ifaceBlock _ _ iface l hb
        rcases hcase with ⟨_, hl4⟩ | ⟨_, hl6⟩
        · rcases mem_ipv4Lines _ _ _ _ hl4 with h | ⟨hd, _⟩
          · rw [h]
            exact ⟨key4_ne_default4 _ hpre, key4_ne_default6 _⟩
          · exact absurd hd.symm hne
        · rcases mem_ipv6Lines _ _ _ _ hl6 with h | ⟨hd, _⟩
          · rw [h]
            exact ⟨key6_ne_default4 _, key6_ne_default6 _ hpre⟩
          · exact absurd hd.symm hne
    rw [hkey]
    exact ⟨fun e => hne.1 (String.ext (Option.some.inj e)),
      fun e => hne.2 (String.ext (Option.some.inj e))⟩

/-- C5, amended, at a concrete input: an empty routing table and the interfaces
`eth0`, bound to `10.0.0.5/24`, and `eth0.100`, bound to `2001:db8::1/64`. -/
theorem no_default_route_witness :
    (writeEnvironment plainTable ⟨.ok [], .ok [⟨"eth0", .ok [⟨"10.0.0.5/24"⟩]⟩,
      ⟨"eth0.100", .ok [⟨"2001:db8::1/64"⟩]⟩]⟩ "" ⟨"", none⟩ none).err = none ∧
    (writeEnvironment plainTable ⟨.ok [], .ok [⟨"eth0", .ok [⟨"10.0.0.5/24"⟩]⟩,
      ⟨"eth0.100", .ok [⟨"2001:db8::1/64"⟩]⟩]⟩ "" ⟨"", none⟩ none).w.written
      = "DEFAULT_IFACE=\nETH0_IPV4=10.0.0.5\nETH0_100_IPV6=2001:db8::1\n" ∧
    ∀ line ∈ textLines (textAdded "" (writeEnvironment plainTable
        ⟨.ok [], .ok [⟨"eth0", .ok [⟨"10.0.0.5/24"⟩]⟩,
          ⟨"eth0.100", .ok [⟨"2001:db8::1/64"⟩]⟩]⟩ "" ⟨"", none⟩ none).w.written),
      lineKey line ≠ some "DEFAULT_IPV4".data ∧ lineKey line ≠ some "DEFAULT_IPV6".data :=
  ⟨by decide, by decide,
    (no_default_route plainTable ⟨.ok [], .ok [⟨"eth0", .ok [⟨"10.0.0.5/24"⟩]⟩,
        ⟨"eth0.100", .ok [⟨"2001:db8::1/64"⟩]⟩]⟩ ⟨"", none⟩ none _
      (by decide) rfl
      (fun iface h => by
        simp only [List.mem_cons, List.mem_singleton, List.not_mem_nil, or_false] at h
        rcases h with rfl | rfl
        · exact ⟨_, rfl⟩
        · exact ⟨_, rfl⟩) rfl).2.2.2.2.2
      (fun iface h => by
        simp only [List.mem_cons, List.mem_singleton, List.not_mem_nil, or_false] at h
        rcases h with rfl | rfl <;> decide)⟩

/-! ## Failure to read the interfaces -/

theorem writeEnvironment_error (host : Host) (e : Error) (h : EnumerationFails host e)
    (d : String) (w : Writer) (f : Option IPNet) :
    (writeEnvironment up host d w f).err = some e ∧ (writeEnvironment up host d w f).w = w := by
  rcases h with h | ⟨pre, x, post, hi, hpre, hx⟩
  · simp [writeEnvironment, h]
  · unfold writeEnvironment
    simp only [hi]
    rw [interfacesLoop_error _ _ pre x post _ e hpre hx]
    exact ⟨rfl, rfl⟩

theorem ne_append_tmp (path : String) : path ≠ path ++ ".tmp" := by
  intro h
  have h1 : path.data.length = (path ++ ".tmp").data.length :=
    congrArg (fun s => s.data.length) h
  have h2 : ".tmp".data.length = 4 := by decide
  rw [String.data_append, List.length_append, h2] at h1
  omega

/-- C8. When `net.Interfaces()` fails, or `Addrs()` fails for some interface
(the first such, after interfaces that were read and formatted), with error
`e`: `writeEnvironment` returns `e` and leaves its writer as it was, nothing
written; and every run of `main` ends with status 1 without reaching
`os.Rename`, the content of the target path being what it was before. -/
theorem abort_without_partial_output (up : Char → Char) (host : Host) (e : Error)
    (h : EnumerationFails host e) :
    (∀ d w f, (writeEnvironment up host d w f).err = some e ∧
      (writeEnvironment up host d w f).w = w ∧
      (writeEnvironment up host d w f).w.written = w.written) ∧
    (∀ flags os, (main up flags host os).renameCalled = false ∧
      (main up flags host os).exitCode = 1 ∧
      (main up flags host os).files flags.environmentFilePath
        = os.files flags.environmentFilePath) := by
  constructor
  · intro d w f
    obtain ⟨h1, h2⟩ := writeEnvironment_error host e h d w f
    exact ⟨h1, h2, by rw [h2]⟩
  · intro flags os
    have herr : ∀ n, (writeEnvironment up host flags.defaultIfaceName
        ⟨"", os.writeFault⟩ n).err = some e :=
      fun n => (writeEnvironment_error host e h flags.defaultIfaceName _ n).1
    unfold main
    by_cases hf : flags.filterCidrStr = ""
    · cases hc : os.createErr <;> simp [hf, hc, herr, setFile, ne_append_tmp]
    · cases hp : ParseCIDR flags.filterCidrStr with
      | none => simp [hf, hp]
      | some p => cases hc : os.createErr <;> simp [hf, hp, hc, herr, setFile, ne_append_tmp]

/-- C8 at a concrete input: `eth0` is read and has an address, `Addrs()` fails
for `eth1`; the target file has content from an earlier run. -/
theorem abort_without_partial_output_witness :
    (∀ d w f, (writeEnvironment plainTable ⟨.ok [], .ok [⟨"eth0", .ok [⟨"10.0.0.5/24"⟩]⟩,
          ⟨"eth1", .error ⟨"no such device"⟩⟩]⟩ d w f).err = some ⟨"no such device"⟩ ∧
      (writeEnvironment plainTable ⟨.ok [], .ok [⟨"eth0", .ok [⟨"10.0.0.5/24"⟩]⟩,
          ⟨"eth1", .error ⟨"no such device"⟩⟩]⟩ d w f).w = w ∧
      (writeEnvironment plainTable ⟨.ok [], .ok [⟨"eth0", .ok [⟨"10.0.0.5/24"⟩]⟩,
          ⟨"eth1", .error ⟨"no such device"⟩⟩]⟩ d w f).w.written = w.written) ∧
    (∀ flags os, (main plainTable flags ⟨.ok [], .ok [⟨"eth0", .ok [⟨"10.0.0.5/24"⟩]⟩,
          ⟨"eth1", .error ⟨"no such device"⟩⟩]⟩ os).renameCalled = false ∧
      (main plainTable flags ⟨.ok [], .ok [⟨"eth0", .ok [⟨"10.0.0.5/24"⟩]⟩,
          ⟨"eth1", .error ⟨"no such device"⟩⟩]⟩ os).exitCode = 1 ∧
      (main plainTable flags ⟨.ok [], .ok [⟨"eth0", .ok [⟨"10.0.0.5/24"⟩]⟩,
          ⟨"eth1", .error ⟨"no such device"⟩⟩]⟩ os).files flags.environmentFilePath
        = os.files flags.environmentFilePath) :=
  abort_without_partial_output plainTable
    ⟨.ok [], .ok [⟨"eth0", .ok [⟨"10.0.0.5/24"⟩]⟩, ⟨"eth1", .error ⟨"no such device"⟩⟩]⟩
    ⟨"no such device"⟩
    (Or.inr ⟨[⟨"eth0", .ok [⟨"10.0.0.5/24"⟩]⟩], ⟨"eth1", .error ⟨"no such device"⟩⟩, [], rfl,
      (fun iface h => by
        rw [List.mem_singleton] at h
        subst h
        exact ⟨_, rfl⟩), rfl⟩)

/-! ## Shape of the output -/

theorem interfacesLoop_concat (d : String) (f : Option IPNet) (A B : List Interface)
    (buffer : Buffer) :
    interfacesLoop up d f (A ++ B) buffer =
      match interfacesLoop up d f A buffer with
      | .ok b => interfacesLoop up d f B b
      | .error e => .error e := by
  induction A generalizing buffer with
  | nil => simp [interfacesLoop]
  | cons iface rest ih =>
    rw [List.cons_append, interfacesLoop, interfacesLoop]
    cases iface.Addrs with
    | error e => rfl
    | ok addrs => exact ih _

theorem body_append (d : String) (f : Option IPNet) (A B : List Interface) :
    body up d f (A ++ B) = body up d f A ++ body up d f B := by
  simp [body]

theorem join_cons (s : String) (ss : List String) :
    String.join (s :: ss) = s ++ String.join ss := by
  apply String.ext
  simp

theorem bufferString_body (d : String) (f : Option IPNet) (interfaces : List Interface) :
    Buffer.String (body up d f interfaces) =
      String.join (interfaces.map (fun iface =>
        Buffer.String (ipv4Loop up d f iface iface.addrs []) ++
          Buffer.String (ipv6Loop up d iface iface.addrs []))) := by
  induction interfaces with
  | nil => rfl
  | cons iface rest ih =>
    have hb : body up d f (iface :: rest) = ifaceBlock up d f iface ++ body up d f rest := by
      simp [body]
    rw [hb, Buffer.String_append, ih, List.map_cons, join_cons, ifaceBlock,
      Buffer.String_append]

theorem Line.format_getLast (l : Line) : (Line.format l).data.getLast? = some '\n' := by
  have h : (Line.format l).data = (l.key.data ++ "=".data ++ l.value.data) ++ ['\n'] := by
    simp only [Line.format, String.data_append]
  rw [h, List.getLast?_append]
  rfl

/-- C6. When the interfaces and their addresses can be read and the writer
accepts the text, the text written is the line `DEFAULT_IFACE=<name>` followed
by the blocks of the interfaces in enumeration order, each block being the
lines of the IPv4 pass followed by the lines of the IPv6 pass. `<name>` is the
`-i` value when that is not empty, else the name the route resolver returns,
which is empty when the resolver fails. The interface loop over `A ++ B` is the
loop over `A` followed by the loop over `B` on the buffer it leaves, so the
lines for `A ++ B` are those for `A` followed by those for `B`; and every line
ends with a newline. -/
theorem output_structure (up : Char → Char) (host : Host) (d : String) (w : Writer) (f : Option IPNet)
    (interfaces : List Interface) (hi : host.Interfaces = .ok interfaces)
    (ha : AllAddrsOk interfaces) (hw : w.fault = none) :
    (writeEnvironment up host d w f).w.written =
      w.written ++ (("DEFAULT_IFACE=" ++ resolvedName host d ++ "\n") ++
        String.join (interfaces.map (fun iface =>
          Buffer.String (ipv4Loop up (resolvedName host d) f iface iface.addrs []) ++
            Buffer.String (ipv6Loop up (resolvedName host d) iface iface.addrs [])))) ∧
    (writeEnvironment up host d w f).err = none ∧
    (d ≠ "" → resolvedName host d = d) ∧
    (d = "" → resolvedName host d = (getDefaultGatewayIfaceName host.NetworkGetRoutes).1) ∧
    (d = "" → (getDefaultGatewayIfaceName host.NetworkGetRoutes).2 ≠ none →
      resolvedName host d = "") ∧
    (∀ A B buffer, interfacesLoop up (resolvedName host d) f (A ++ B) buffer =
      match interfacesLoop up (resolvedName host d) f A buffer with
      | .ok b => interfacesLoop up (resolvedName host d) f B b
      | .error e => .error e) ∧
    (∀ A B, AllAddrsOk A → AllAddrsOk B → ∀ buffer,
      ∃ la lb, interfacesLoop up (resolvedName host d) f A [] = .ok la ∧
        interfacesLoop up (resolvedName host d) f B [] = .ok lb ∧
        interfacesLoop up (resolvedName host d) f (A ++ B) buffer = .ok (buffer ++ la ++ lb)) ∧
    (∀ l : Line, (Line.format l).data.getLast? = some '\n') := by
  obtain ⟨h1, _, h3⟩ := writeEnvironment_ok host d w f interfaces hi ha hw
  refine ⟨?_, h1, ?_, ?_, ?_, ?_, ?_, Line.format_getLast⟩
  · rw [h3, Buffer.String_cons, bufferString_body]
    rfl
  · intro hd
    simp [resolvedName, hd]
  · intro hd
    simp [resolvedName, hd]
  · intro hd hr
    simp only [resolvedName, hd, if_true]
    exact resolver_failure_name _ hr
  · intro A B buffer
    exact interfacesLoop_concat _ f A B buffer
  · intro A B hA hB buffer
    refine ⟨body up (resolvedName host d) f A, body up (resolvedName host d) f B, ?_, ?_, ?_⟩
    · rw [interfacesLoop_ok _ _ _ _ hA, List.nil_append]
    · rw [interfacesLoop_ok _ _ _ _ hB, List.nil_append]
    · have hAB : AllAddrsOk (A ++ B) := by
        intro x hx
        rcases List.mem_append.mp hx with hx | hx
        · exact hA x hx
        · exact hB x hx
      rw [interfacesLoop_ok _ _ _ _ hAB, body_append, List.append_assoc]

/-- C6 at a concrete input: no `-i`, a default route on `eth0`, interfaces `lo`
and `eth0`. -/
theorem output_structure_witness :
    (writeEnvironment plainTable ⟨.ok [⟨true, some ⟨"eth0", .ok []⟩⟩],
        .ok [⟨"lo", .ok [⟨"127.0.0.1/8"⟩]⟩, ⟨"eth0", .ok [⟨"10.0.0.5/24"⟩, ⟨"2001:db8::1/64"⟩]⟩]⟩
        "" ⟨"", none⟩ none).w.written =
      "DEFAULT_IFACE=eth0\nLO_IPV4=127.0.0.1\nETH0_IPV4=10.0.0.5\nDEFAULT_IPV4=10.0.0.5\n" ++
        "ETH0_IPV6=2001:db8::1\nDEFAULT_IPV6=2001:db8::1\n" ∧
    (writeEnvironment plainTable ⟨.ok [⟨true, some ⟨"eth0", .ok []⟩⟩],
        .ok [⟨"lo", .ok [⟨"127.0.0.1/8"⟩]⟩, ⟨"eth0", .ok [⟨"10.0.0.5/24"⟩, ⟨"2001:db8::1/64"⟩]⟩]⟩
        "" ⟨"", none⟩ none).w.written =
      "" ++ (("DEFAULT_IFACE=" ++ "eth0" ++ "\n") ++
        String.join ([(⟨"lo", .ok [⟨"127.0.0.1/8"⟩]⟩ : Interface),
            ⟨"eth0", .ok [⟨"10.0.0.5/24"⟩, ⟨"2001:db8::1/64"⟩]⟩].map (fun iface =>
          Buffer.String (ipv4Loop plainTable "eth0" none iface iface.addrs []) ++
            Buffer.String (ipv6Loop plainTable "eth0" iface iface.addrs [])))) :=
  ⟨by decide,
    (output_structure plainTable ⟨.ok [⟨true, some ⟨"eth0", .ok []⟩⟩],
        .ok [⟨"lo", .ok [⟨"127.0.0.1/8"⟩]⟩, ⟨"eth0", .ok [⟨"10.0.0.5/24"⟩, ⟨"2001:db8::1/64"⟩]⟩]⟩
      "" ⟨"", none⟩ none _ rfl
      (fun iface h => by
        simp only [List.mem_cons, List.mem_singleton, List.not_mem_nil, or_false] at h
        rcases h with rfl | rfl
        · exact ⟨_, rfl⟩
        · exact ⟨_, rfl⟩) rfl).1⟩

/-! ## Key prefix -/

theorem unicodeToUpper_dot (c : Char) : unicodeToUpper up '.' = '.' ∧
    ((∀ r, up r ≠ '.') → (unicodeToUpper up c = '.' ↔ c = '.')) := by
  refine ⟨rfl, fun htable => ⟨fun h => ?_, fun h => by rw [h]; rfl⟩⟩
  unfold unicodeToUpper at h
  split at h
  · split at h
    · rename_i hc
      exfalso
      have ha : 'a'.toNat = 97 := rfl
      have hz : 'z'.toNat = 122 := rfl
      have hA : 'A'.toNat = 65 := rfl
      rw [ha, hz] at hc
      rw [ha, hA] at h
      generalize c.toNat = n at h hc
      obtain ⟨h1, h2⟩ := hc
      interval_cases n <;> exact absurd h (by decide)
    · exact h
  · exact absurd h (htable c)

theorem keyPrefix_data (name : String) :
    (keyPrefix up name).data =
      (name.data.map (unicodeToUpper up)).map (fun c => if c = '.' then '_' else c) := by
  simp only [keyPrefix, stringsReplace, stringsToUpper]

theorem dot_not_mem_keyPrefix (name : String) : '.' ∉ (keyPrefix up name).data := by
  rw [keyPrefix_data]
  intro h
  obtain ⟨c, _, hc⟩ := List.mem_map.mp h
  by_cases hd : c = '.'
  · simp [hd] at hc
  · simp [hd] at hc

/-- C9. For every case table of `unicode.ToUpper`, every interface, default
name, filter and address list: a line of the IPv4 pass has the key
`<prefix>_IPV4` (or is the `DEFAULT_IPV4` line of the default interface) and a
line of the IPv6 pass the key `<prefix>_IPV6` (or is `DEFAULT_IPV6`), with the
same `<prefix>`: the interface name, rune by rune, put in upper case by
`unicode.ToUpper` and then `_` where that gave `.`. A `.` of the name stays `.`
in upper case, so becomes `_`; the prefix has as many runes as the name and no
`.`; when the case table yields no `.`, the runes replaced are exactly the dots
of the name. `eth0.100` gives `ETH0_100`, and the upper case of `éth0` starts
with the rune the case table gives for `é`. -/
theorem key_prefix (up : Char → Char) (d : String) (f : Option IPNet) (iface : Interface)
    (addrs : List Addr) :
    (∀ l ∈ ipv4Loop up d f iface addrs [],
      l.key = keyPrefix up iface.Name ++ "_IPV4" ∨
        (d = iface.Name ∧ l.key = "DEFAULT_IPV4")) ∧
    (∀ l ∈ ipv6Loop up d iface addrs [],
      l.key = keyPrefix up iface.Name ++ "_IPV6" ∨
        (d = iface.Name ∧ l.key = "DEFAULT_IPV6")) ∧
    keyPrefix up iface.Name = stringsReplace (stringsToUpper up iface.Name) '.' '_' ∧
    (keyPrefix up iface.Name).data =
      (iface.Name.data.map (unicodeToUpper up)).map (fun c => if c = '.' then '_' else c) ∧
    unicodeToUpper up '.' = '.' ∧
    (keyPrefix up iface.Name).data.length = iface.Name.data.length ∧
    '.' ∉ (keyPrefix up iface.Name).data ∧
    ((∀ r, up r ≠ '.') → (keyPrefix up iface.Name).data =
      iface.Name.data.map (fun c => if c = '.' then '_' else unicodeToUpper up c)) ∧
    keyPrefix up "eth0.100" = "ETH0_100" ∧
    stringsToUpper up "éth0" = String.mk [up 'é', 'T', 'H', '0'] ∧
    (interfacesLoop up "" none [⟨"eth0.100", .ok [⟨"10.0.0.5/24"⟩, ⟨"2001:db8::1/64"⟩]⟩] []
      = .ok [⟨"ETH0_100_IPV4", "10.0.0.5"⟩, ⟨"ETH0_100_IPV6", "2001:db8::1"⟩]) := by
  refine ⟨?_, ?_, rfl, keyPrefix_data _, rfl, ?_, dot_not_mem_keyPrefix _, ?_, rfl, rfl, rfl⟩
  · intro l hl
    obtain ⟨a, _, ip, _, hl4⟩ := mem_ipv4Loop d f iface addrs l hl
    rcases mem_ipv4Lines _ _ _ _ hl4 with h | ⟨hd, h⟩
    · exact Or.inl (by rw [h])
    · exact Or.inr ⟨hd, by rw [h]⟩
  · intro l hl
    obtain ⟨a, _, ip, _, hl6⟩ := mem_ipv6Loop d iface addrs l hl
    rcases mem_ipv6Lines _ _ _ _ hl6 with h | ⟨hd, h⟩
    · exact Or.inl (by rw [h])
    · exact Or.inr ⟨hd, by rw [h]⟩
  · rw [keyPrefix_data]
    simp
  · intro htable
    rw [keyPrefix_data, List.map_map]
    apply List.map_congr_left
    intro c _
    simp only [Function.comp]
    by_cases hc : c = '.'
    · subst hc
      rfl
    · have hne : ¬ unicodeToUpper up c = '.' :=
        fun h => hc (((unicodeToUpper_dot c).2 htable).mp h)
      simp [hc, hne]

/-! ## Uniqueness of keys -/

theorem countKey_append (key : String) (a b : List Line) :
    countKey key (a ++ b) = countKey key a + countKey key b := by
  simp [countKey]

theorem countKey_pos (key : String) (lines : List Line) (l : Line) (hl : l ∈ lines)
    (hk : l.key = key) : 0 < countKey key lines := by
  unfold countKey
  exact List.length_pos_of_mem (List.mem_filter.mpr ⟨hl, by simpa using hk⟩)

theorem ifaceBlock_cases (d : String) (f : Option IPNet) (iface : Interface) :
    ∃ v4 v6, ifaceBlock up d f iface = v4 ++ v6 ∧
      (v4 = [] ∨ ∃ ip, v4 = ipv4Lines up d iface ip) ∧
      (v6 = [] ∨ ∃ ip, v6 = ipv6Lines up d iface ip) := by
  refine ⟨_, _, rfl, ?_, ?_⟩
  · rcases none_or_first (AcceptedIPv4 f) iface.addrs with h | ⟨ip, h⟩
    · exact Or.inl (ipv4Loop_none d f iface _ [] h)
    · exact Or.inr ⟨ip, by rw [ipv4Loop_first d f iface _ [] ip h]; rfl⟩
  · rcases none_or_first AcceptedIPv6 iface.addrs with h | ⟨ip, h⟩
    · exact Or.inl (ipv6Loop_none d iface _ [] h)
    · exact Or.inr ⟨ip, by rw [ipv6Loop_first d iface _ [] ip h]; rfl⟩

theorem countKey_ipv4Lines (d : String) (iface : Interface) (ip : IP) (key : String) :
    countKey key (ipv4Lines up d iface ip) =
      (if keyPrefix up iface.Name ++ "_IPV4" = key then 1 else 0) +
        (if d = iface.Name ∧ "DEFAULT_IPV4" = key then 1 else 0) := by
  unfold countKey ipv4Lines
  by_cases h1 : keyPrefix up iface.Name ++ "_IPV4" = key <;>
    by_cases h2 : d = iface.Name <;>
    by_cases h3 : "DEFAULT_IPV4" = key <;>
    simp [List.filter_cons, h1, h2, h3]

theorem countKey_ipv6Lines (d : String) (iface : Interface) (ip : IP) (key : String) :
    countKey key (ipv6Lines up d iface ip) =
      (if keyPrefix up iface.Name ++ "_IPV6" = key then 1 else 0) +
        (if d = iface.Name ∧ "DEFAULT_IPV6" = key then 1 else 0) := by
  unfold countKey ipv6Lines
  by_cases h1 : keyPrefix up iface.Name ++ "_IPV6" = key <;>
    by_cases h2 : d = iface.Name <;>
    by_cases h3 : "DEFAULT_IPV6" = key <;>
    simp [List.filter_cons, h1, h2, h3]

/-- Lines of one interface with the key `DEFAULT_IPV4`: at most one, and none
off the default interface. -/
theorem countKey_block_default4 (d : String) (f : Option IPNet) (iface : Interface)
    (hn : keyPrefix up iface.Name ≠ "DEFAULT") :
    countKey "DEFAULT_IPV4" (ifaceBlock up d f iface) ≤ 1 ∧
      (d ≠ iface.Name → countKey "DEFAULT_IPV4" (ifaceBlock up d f iface) = 0) := by
  obtain ⟨v4, v6, hb, h4, h6⟩ := @ifaceBlock_cases up d f iface
  have e6 : countKey "DEFAULT_IPV4" v6 = 0 := by
    rcases h6 with h | ⟨ip, h⟩
    · rw [h]; rfl
    · rw [h, countKey_ipv6Lines, if_neg (key6_ne_default4 _), if_neg (by simp)]
  rw [hb, countKey_append, e6]
  rcases h4 with h | ⟨ip, h⟩
  · rw [h]
    exact ⟨Nat.zero_le 1, fun _ => rfl⟩
  · rw [h, countKey_ipv4Lines, if_neg (key4_ne_default4 _ hn)]
    constructor
    · split <;> simp
    · intro hd
      simp [hd]

/-- Lines of one interface with the key `DEFAULT_IPV6`: at most one, and none
off the default interface. -/
theorem countKey_block_default6 (d : String) (f : Option IPNet) (iface : Interface)
    (hn : keyPrefix up iface.Name ≠ "DEFAULT") :
    countKey "DEFAULT_IPV6" (ifaceBlock up d f iface) ≤ 1 ∧
      (d ≠ iface.Name → countKey "DEFAULT_IPV6" (ifaceBlock up d f iface) = 0) := by
  obtain ⟨v4, v6, hb, h4, h6⟩ := @ifaceBlock_cases up d f iface
  have e4 : countKey "DEFAULT_IPV6" v4 = 0 := by
    rcases h4 with h | ⟨ip, h⟩
    · rw [h]; rfl
    · rw [h, countKey_ipv4Lines, if_neg (key4_ne_default6 _), if_neg (by simp)]
  rw [hb, countKey_append, e4]
  rcases h6 with h | ⟨ip, h⟩
  · rw [h]
    exact ⟨Nat.zero_le 1, fun _ => rfl⟩
  · rw [h, countKey_ipv6Lines, if_neg (key6_ne_default6 _ hn)]
    constructor
    · split <;> simp
    · intro hd
      simp [hd]

/-- Lines of one interface with its own `_IPV4` key, and with its own `_IPV6`
key: at most one of each. -/
theorem countKey_block_own (d : String) (f : Option IPNet) (iface : Interface)
    (hn : keyPrefix up iface.Name ≠ "DEFAULT") :
    countKey (keyPrefix up iface.Name ++ "_IPV4") (ifaceBlock up d f iface) ≤ 1 ∧
      countKey (keyPrefix up iface.Name ++ "_IPV6") (ifaceBlock up d f iface) ≤ 1 := by
  obtain ⟨v4, v6, hb, h4, h6⟩ := @ifaceBlock_cases up d f iface
  rw [hb, countKey_append, countKey_append]
  have a4 : countKey (keyPrefix up iface.Name ++ "_IPV4") v4 ≤ 1 := by
    rcases h4 with h | ⟨ip, h⟩
    · rw [h]; exact Nat.zero_le _
    · rw [h, countKey_ipv4Lines, if_pos rfl,
        if_neg (fun hc => key4_ne_default4 _ hn hc.2.symm)]
  have a6 : countKey (keyPrefix up iface.Name ++ "_IPV4") v6 = 0 := by
    rcases h6 with h | ⟨ip, h⟩
    · rw [h]; rfl
    · rw [h, countKey_ipv6Lines, if_neg (fun hc => key4_ne_key6 _ _ hc.symm),
        if_neg (fun hc => key4_ne_default6 _ hc.2.symm)]
  have b4 : countKey (keyPrefix up iface.Name ++ "_IPV6") v4 = 0 := by
    rcases h4 with h | ⟨ip, h⟩
    · rw [h]; rfl
    · rw [h, countKey_ipv4Lines, if_neg (key4_ne_key6 _ _),
        if_neg (fun hc => key6_ne_default4 _ hc.2.symm)]
  have b6 : countKey (keyPrefix up iface.Name ++ "_IPV6") v6 ≤ 1 := by
    rcases h6 with h | ⟨ip, h⟩
    · rw [h]; exact Nat.zero_le _
    · rw [h, countKey_ipv6Lines, if_pos rfl,
        if_neg (fun hc => key6_ne_default6 _ hn hc.2.symm)]
  omega

theorem countKey_body (d : String) (f : Option IPNet) (key : String)
    (interfaces : List Interface)
    (hnodup : (interfaces.map Interface.Name).Nodup)
    (hblock : ∀ iface ∈ interfaces, countKey key (ifaceBlock up d f iface) ≤ 1 ∧
      (d ≠ iface.Name → countKey key (ifaceBlock up d f iface) = 0)) :
    countKey key (body up d f interfaces) ≤ 1 ∧
      (d ∉ interfaces.map Interface.Name → countKey key (body up d f interfaces) = 0) := by
  induction interfaces with
  | nil => exact ⟨Nat.zero_le 1, fun _ => rfl⟩
  | cons iface rest ih =>
    have hb : body up d f (iface :: rest) = ifaceBlock up d f iface ++ body up d f rest := by
      simp [body]
    rw [List.map_cons, List.nodup_cons] at hnodup
    obtain ⟨hnot, hrest⟩ := hnodup
    obtain ⟨ih1, ih2⟩ := ih hrest (fun x hx => hblock x (List.mem_cons_of_mem iface hx))
    obtain ⟨hb1, hb2⟩ := hblock iface (List.mem_cons_self iface rest)
    rw [hb, countKey_append]
    constructor
    · by_cases hd : d = iface.Name
      · have := ih2 (by rw [hd]; exact hnot)
        omega
      · have := hb2 hd
        omega
    · intro hmem
      rw [List.map_cons, List.mem_cons, not_or] at hmem
      have h1 := hb2 hmem.1
      have h2 := ih2 hmem.2
      omega

theorem countTextKey_block (d : String) (f : Option IPNet) (iface : Interface) (key : String)
    (hn : PlainKey (keyPrefix up iface.Name)) :
    countTextKey key (Buffer.String (ifaceBlock up d f iface)) =
      countKey key (ifaceBlock up d f iface) :=
  countTextKey_buffer key _ (wellFormed_ifaceBlock d f iface hn)

/-- C10, counterexample. A default route on `eth0` and a second interface named
`DEFAULT`: the text written has two lines with the key `DEFAULT_IPV4`, the
second of them for an interface that is not the default one. The same with a
second interface named `default_ipv4=`, whose key prefix is not `DEFAULT`.
When the interface named `DEFAULT` is itself the default interface, its block
alone has two lines with the key `DEFAULT_IPV4`. And a `-i` value with line
breaks in it puts `DEFAULT_IPV4` lines in the header, with no interface at
all. -/
theorem key_uniqueness_counterexample :
    (∀ caseTable, (writeEnvironment caseTable ⟨.ok [⟨true, some ⟨"eth0", .ok []⟩⟩],
        .ok [⟨"eth0", .ok [⟨"10.0.0.5/24"⟩]⟩, ⟨"DEFAULT", .ok [⟨"192.168.1.10/24"⟩]⟩]⟩
        "" ⟨"", none⟩ none).w.written =
      "DEFAULT_IFACE=eth0\nETH0_IPV4=10.0.0.5\nDEFAULT_IPV4=10.0.0.5\n" ++
        "DEFAULT_IPV4=192.168.1.10\n") ∧
    countTextKey "DEFAULT_IPV4" ("DEFAULT_IFACE=eth0\nETH0_IPV4=10.0.0.5\n" ++
      "DEFAULT_IPV4=10.0.0.5\nDEFAULT_IPV4=192.168.1.10\n") = 2 ∧
    (∀ caseTable, keyPrefix caseTable "default_ipv4=" = "DEFAULT_IPV4=" ∧
      (writeEnvironment caseTable ⟨.ok [⟨true, some ⟨"eth0", .ok []⟩⟩],
        .ok [⟨"eth0", .ok [⟨"10.0.0.5/24"⟩]⟩, ⟨"default_ipv4=", .ok [⟨"192.168.1.10/24"⟩]⟩]⟩
        "" ⟨"", none⟩ none).w.written =
      "DEFAULT_IFACE=eth0\nETH0_IPV4=10.0.0.5\nDEFAULT_IPV4=10.0.0.5\n" ++
        "DEFAULT_IPV4=_IPV4=192.168.1.10\n") ∧
    countTextKey "DEFAULT_IPV4" ("DEFAULT_IFACE=eth0\nETH0_IPV4=10.0.0.5\n" ++
      "DEFAULT_IPV4=10.0.0.5\nDEFAULT_IPV4=_IPV4=192.168.1.10\n") = 2 ∧
    (∀ caseTable, Buffer.String (ifaceBlock caseTable "DEFAULT" none
        ⟨"DEFAULT", .ok [⟨"192.168.1.10/24"⟩]⟩) =
      "DEFAULT_IPV4=192.168.1.10\nDEFAULT_IPV4=192.168.1.10\n") ∧
    countTextKey "DEFAULT_IPV4" "DEFAULT_IPV4=192.168.1.10\nDEFAULT_IPV4=192.168.1.10\n" = 2 ∧
    (∀ caseTable, (writeEnvironment caseTable ⟨.ok [], .ok []⟩
        "x\nDEFAULT_IPV4=1\nDEFAULT_IPV4=2" ⟨"", none⟩ none).w.written =
      "DEFAULT_IFACE=x\nDEFAULT_IPV4=1\nDEFAULT_IPV4=2\n") ∧
    countTextKey "DEFAULT_IPV4" "DEFAULT_IFACE=x\nDEFAULT_IPV4=1\nDEFAULT_IPV4=2\n" = 2 :=
  ⟨fun _ => rfl, by decide, fun _ => ⟨rfl, rfl⟩, by decide, fun _ => rfl, by decide,
    fun _ => rfl, by decide⟩

/-- C10, amended. When the interfaces and their addresses can be read and the
writer accepts the text, the interface names are pairwise distinct, the default
name has no line break, and no interface has the key prefix `DEFAULT` or a key
prefix with `=` or a line break in it: the text added to the writer is the
header line followed by the blocks of the interfaces; the block of each
interface has at most one line with its `_IPV4` key and at most one with its
`_IPV6` key; the text has at most one line with the key `DEFAULT_IPV4` and at
most one with the key `DEFAULT_IPV6`, and such a line is a line of the block of
an interface whose name is the default name. -/
theorem key_uniqueness (up : Char → Char) (host : Host) (d : String) (w : Writer)
    (f : Option IPNet) (interfaces : List Interface)
    (hi : host.Interfaces = .ok interfaces)
    (ha : AllAddrsOk interfaces) (hw : w.fault = none)
    (hnodup : (interfaces.map Interface.Name).Nodup)
    (hd : '\n' ∉ (resolvedName host d).data)
    (hn : ∀ iface ∈ interfaces, keyPrefix up iface.Name ≠ "DEFAULT" ∧
      PlainKey (keyPrefix up iface.Name)) :
    (writeEnvironment up host d w f).w.written =
      w.written ++ textAdded w.written (writeEnvironment up host d w f).w.written ∧
    textAdded w.written (writeEnvironment up host d w f).w.written =
      ("DEFAULT_IFACE=" ++ resolvedName host d ++ "\n") ++
        String.join (interfaces.map (fun iface =>
          Buffer.String (ifaceBlock up (resolvedName host d) f iface))) ∧
    (∀ iface ∈ interfaces,
      countTextKey (keyPrefix up iface.Name ++ "_IPV4")
        (Buffer.String (ifaceBlock up (resolvedName host d) f iface)) ≤ 1 ∧
      countTextKey (keyPrefix up iface.Name ++ "_IPV6")
        (Buffer.String (ifaceBlock up (resolvedName host d) f iface)) ≤ 1) ∧
    countTextKey "DEFAULT_IPV4"
      (textAdded w.written (writeEnvironment up host d w f).w.written) ≤ 1 ∧
    countTextKey "DEFAULT_IPV6"
      (textAdded w.written (writeEnvironment up host d w f).w.written) ≤ 1 ∧
    (∀ line ∈ textLines (textAdded w.written (writeEnvironment up host d w f).w.written),
      lineKey line = some "DEFAULT_IPV4".data ∨ lineKey line = some "DEFAULT_IPV6".data →
      ∃ iface ∈ interfaces, iface.Name = resolvedName host d ∧
        line ∈ textLines (Buffer.String (ifaceBlock up (resolvedName host d) f iface))) := by
  have h3 := (@writeEnvironment_ok up host d w f interfaces hi ha hw).2.2
  have hT := @textAdded_writeEnvironment up host d w f interfaces hi ha hw
  have hwf := @wellFormed_output up (resolvedName host d) (resolvedName host d) f interfaces hd
    (fun iface hif => (hn iface hif).2)
  have hcons : ∀ key : String, key ≠ "DEFAULT_IFACE" →
      countKey key ((⟨"DEFAULT_IFACE", resolvedName host d⟩ : Line) ::
        body up (resolvedName host d) f interfaces)
        = countKey key (body up (resolvedName host d) f interfaces) := by
    intro key hk
    have : ¬ "DEFAULT_IFACE" = key := fun e => hk e.symm
    simp [countKey, List.filter_cons, this]
  refine ⟨?_, ?_, ?_, ?_, ?_, ?_⟩
  · rw [hT]
    exact h3
  · rw [hT, Buffer.String_cons, bufferString_body]
    have hblock : ∀ iface : Interface,
        Buffer.String (ipv4Loop up (resolvedName host d) f iface iface.addrs []) ++
          Buffer.String (ipv6Loop up (resolvedName host d) iface iface.addrs []) =
        Buffer.String (ifaceBlock up (resolvedName host d) f iface) := by
      intro iface
      rw [ifaceBlock, Buffer.String_append]
    simp only [hblock]
    rfl
  · intro iface hif
    obtain ⟨hpre, hplain⟩ := hn iface hif
    rw [countTextKey_block _ f iface _ hplain, countTextKey_block _ f iface _ hplain]
    exact countKey_block_own _ f iface hpre
  · rw [hT, countTextKey_buffer _ _ hwf, hcons _ (by decide)]
    exact (countKey_body (resolvedName host d) f "DEFAULT_IPV4" interfaces hnodup
      (fun x hx => countKey_block_default4 _ f x (hn x hx).1)).1
  · rw [hT, countTextKey_buffer _ _ hwf, hcons _ (by decide)]
    exact (countKey_body (resolvedName host d) f "DEFAULT_IPV6" interfaces hnodup
      (fun x hx => countKey_block_default6 _ f x (hn x hx).1)).1
  · intro line hline hk
    rw [hT] at hline
    obtain ⟨l, hl, hline_eq, hkey⟩ := mem_textLines_buffer _ hwf line hline
    have hlk : l.key = "DEFAULT_IPV4" ∨ l.key = "DEFAULT_IPV6" := by
      rw [hkey] at hk
      rcases hk with hk | hk
      · exact Or.inl (String.ext (Option.some.inj hk))
      · exact Or.inr (String.ext (Option.some.inj hk))
    have hbody : l ∈ body up (resolvedName host d) f interfaces := by
      rcases List.mem_cons.mp hl with rfl | hl
      · rcases hlk with h | h
        · exact absurd (show "DEFAULT_IFACE" = "DEFAULT_IPV4" from h) (by decide)
        · exact absurd (show "DEFAULT_IFACE" = "DEFAULT_IPV6" from h) (by decide)
      · exact hl
    obtain ⟨iface, hif, hb⟩ := mem_body _ _ _ l hbody
    obtain ⟨hpre, hplain⟩ := hn iface hif
    refine ⟨iface, hif, ?_, ?_⟩
    · by_contra hne
      have hne' : resolvedName host d ≠ iface.Name := fun h => hne h.symm
      rcases hlk with hk | hk
      · have h0 := (countKey_block_default4 (resolvedName host d) f iface hpre).2 hne'
        have hpos := countKey_pos "DEFAULT_IPV4" _ l hb hk
        omega
      · have h0 := (countKey_block_default6 (resolvedName host d) f iface hpre).2 hne'
        have hpos := countKey_pos "DEFAULT_IPV6" _ l hb hk
        omega
    · rw [textLines_buffer _ (fun x hx =>
        (wellFormed_ifaceBlock (resolvedName host d) f iface hplain x hx).lineText), hline_eq]
      exact List.mem_map_of_mem lineText hb

/-- C10, amended, at a concrete input: a default route on `eth0`, interfaces
`eth0` and `eth1` with one IPv4 address each. -/
theorem key_uniqueness_witness :
    (writeEnvironment plainTable ⟨.ok [⟨true, some ⟨"eth0", .ok []⟩⟩],
        .ok [⟨"eth0", .ok [⟨"10.0.0.5/24"⟩]⟩, ⟨"eth1", .ok [⟨"192.168.1.10/24"⟩]⟩]⟩
        "" ⟨"", none⟩ none).w.written =
      "DEFAULT_IFACE=eth0\nETH0_IPV4=10.0.0.5\nDEFAULT_IPV4=10.0.0.5\n" ++
        "ETH1_IPV4=192.168.1.10\n" ∧
    countTextKey "DEFAULT_IPV4" (textAdded "" (writeEnvironment plainTable
        ⟨.ok [⟨true, some ⟨"eth0", .ok []⟩⟩],
          .ok [⟨"eth0", .ok [⟨"10.0.0.5/24"⟩]⟩, ⟨"eth1", .ok [⟨"192.168.1.10/24"⟩]⟩]⟩
        "" ⟨"", none⟩ none).w.written) ≤ 1 ∧
    countTextKey "DEFAULT_IPV6" (textAdded "" (writeEnvironment plainTable
        ⟨.ok [⟨true, some ⟨"eth0", .ok []⟩⟩],
          .ok [⟨"eth0", .ok [⟨"10.0.0.5/24"⟩]⟩, ⟨"eth1", .ok [⟨"192.168.1.10/24"⟩]⟩]⟩
        "" ⟨"", none⟩ none).w.written) ≤ 1 :=
  ⟨by decide,
    (key_uniqueness plainTable ⟨.ok [⟨true, some ⟨"eth0", .ok []⟩⟩],
        .ok [⟨"eth0", .ok [⟨"10.0.0.5/24"⟩]⟩, ⟨"eth1", .ok [⟨"192.168.1.10/24"⟩]⟩]⟩
      "" ⟨"", none⟩ none _ rfl
      (fun iface h => by
        simp only [List.mem_cons, List.mem_singleton, List.not_mem_nil, or_false] at h
        rcases h with rfl | rfl
        · exact ⟨_, rfl⟩
        · exact ⟨_, rfl⟩) rfl (by decide) (by decide)
      (fun iface h => by
        simp only [List.mem_cons, List.mem_singleton, List.not_mem_nil, or_false] at h
        rcases h with rfl | rfl <;> decide)).2.2.2.1,
    (key_uniqueness plainTable ⟨.ok [⟨true, some ⟨"eth0", .ok []⟩⟩],
        .ok [⟨"eth0", .ok [⟨"10.0.0.5/24"⟩]⟩, ⟨"eth1", .ok [⟨"192.168.1.10/24"⟩]⟩]⟩
      "" ⟨"", none⟩ none _ rfl
      (fun iface h => by
        simp only [List.mem_cons, List.mem_singleton, List.not_mem_nil, or_false] at h
        rcases h with rfl | rfl
        · exact ⟨_, rfl⟩
        · exact ⟨_, rfl⟩) rfl (by decide) (by decide)
      (fun iface h => by
        simp only [List.mem_cons, List.mem_singleton, List.not_mem_nil, or_false] at h
        rcases h with rfl | rfl <;> decide)).2.2.2.2.1⟩

end SetupNetworkEnvironment
